import Mathlib

/-!
Shallow embedding of the EWCSController migration scripts
(migrate_cs125_current.py, migrate_power_save_mode.py, migrate_images.py).

A database is a list of named tables together with a list of named indexes;
a table is an ordered column list and a list of rows of positionally aligned
values.  Each script is modelled as a function from an initial database and a
failure point (which statement, if any, raises an exception) to a run result:
the final database, the Python-level outcome of the migration function, and
the ordered list of observable events (statements executed, rollback, prints).
SQLite transaction semantics are modelled by carrying the database as it was
at BEGIN TRANSACTION as the rollback target; a rollback performed when no
transaction is open (after COMMIT) is a no-op, as in the sqlite3 module.
-/

namespace EWCS

/-- A stored SQLite value.  Numeric affinities are collapsed into `int` and
`text` carriers, since the migrations never compute with cell values, only
move them; `engineDefault` stands for a cell the engine fills in on its own
(AUTOINCREMENT ids, DEFAULT CURRENT_TIMESTAMP), whose concrete value the
scripts never read. -/
inductive SqlValue where
  | null
  | int (i : Int)
  | text (s : String)
  | engineDefault
deriving DecidableEq

/-- An SQLite table: ordered column names and rows aligned to them. -/
structure Table where
  cols : List String
  rows : List (List SqlValue)
deriving DecidableEq

/-- Association-list lookup of a table by name (first match wins). -/
def lookupTable : List (String × Table) → String → Option Table
  | [], _ => none
  | (n, t) :: rest, m => if n = m then some t else lookupTable rest m

/-- Replace every entry of the given name by the given table. -/
def setTableList : List (String × Table) → String → Table → List (String × Table)
  | [], _, _ => []
  | (a, b) :: tl, m, t =>
    if a = m then (m, t) :: setTableList tl m t else (a, b) :: setTableList tl m t

/-- Remove every entry of the given name (DROP TABLE). -/
def dropTableList : List (String × Table) → String → List (String × Table)
  | [], _ => []
  | (a, b) :: tl, m =>
    if a = m then dropTableList tl m else (a, b) :: dropTableList tl m

/-- Rename every entry called `oldName` to `newName` (ALTER TABLE RENAME). -/
def renameTableList : List (String × Table) → String → String → List (String × Table)
  | [], _, _ => []
  | (a, b) :: tl, o, n =>
    if a = o then (n, b) :: renameTableList tl o n else (a, b) :: renameTableList tl o n

/-- The database file `data/ewcs.db`: named tables plus named indexes, an
index being recorded as (index name, table it belongs to). -/
structure DB where
  tables : List (String × Table)
  indexes : List (String × String)
deriving DecidableEq

def DB.getTable (db : DB) (m : String) : Option Table :=
  lookupTable db.tables m

def DB.hasTable (db : DB) (m : String) : Bool :=
  (db.getTable m).isSome

/-- Column names as reported by PRAGMA table_info: the empty list for a
missing table (the PRAGMA yields no rows then, it does not raise). -/
def DB.columnNames (db : DB) (m : String) : List String :=
  ((db.getTable m).map Table.cols).getD []

/-- Rows of a table, the empty list for a missing table. -/
def DB.rowsOf (db : DB) (m : String) : List (List SqlValue) :=
  ((db.getTable m).map Table.rows).getD []

/-- CREATE TABLE: append a fresh empty table (callers check for collisions,
as SQLite raises when the name already exists). -/
def DB.createTable (db : DB) (m : String) (cols : List String) : DB :=
  { db with tables := db.tables ++ [(m, ⟨cols, []⟩)] }

def DB.setTable (db : DB) (m : String) (t : Table) : DB :=
  { db with tables := setTableList db.tables m t }

/-- DROP TABLE also drops the indexes attached to the table, as SQLite does. -/
def DB.dropTable (db : DB) (m : String) : DB :=
  { tables := dropTableList db.tables m
    indexes := db.indexes.filter (fun p => p.2 != m) }

/-- ALTER TABLE RENAME keeps attached indexes, pointing them at the new name. -/
def DB.renameTable (db : DB) (oldName newName : String) : DB :=
  { tables := renameTableList db.tables oldName newName
    indexes := db.indexes.map (fun p => if p.2 = oldName then (p.1, newName) else p) }

def DB.hasIndexName (db : DB) (m : String) : Bool :=
  db.indexes.any (fun p => p.1 == m)

/-- CREATE INDEX IF NOT EXISTS: skip silently when the name is taken. -/
def DB.createIndexIfNotExists (db : DB) (idx tbl : String) : DB :=
  if db.hasIndexName idx then db
  else { db with indexes := db.indexes ++ [(idx, tbl)] }

/-- Position of the first occurrence of a column name in a column list. -/
def firstIdx : List String → String → Option Nat
  | [], _ => none
  | x :: xs, c => if x = c then some 0 else (firstIdx xs c).map (· + 1)

/-- Value of the named column in a positionally aligned row (NULL when the
column or the cell is missing, mirroring how SQL resolves column references). -/
def lookupCell (cols : List String) (row : List SqlValue) (c : String) : SqlValue :=
  match firstIdx cols c with
  | some i => row.getD i .null
  | none => .null

/-- Row built by `INSERT INTO target (listed…) SELECT listed… FROM source`:
each target column takes the selected source value when it is listed,
otherwise the engine fills it in (default / autoincrement). -/
def insertedRow (targetCols listed srcCols : List String)
    (srcRow : List SqlValue) : List SqlValue :=
  targetCols.map (fun c =>
    if listed.contains c then lookupCell srcCols srcRow c else .engineDefault)

/-- Observable events of a run, in order: connection, transaction control,
the SQL statements executed (with the cursor rowcount where the scripts
print it), the prints, and the rollback / close calls. -/
inductive Event where
  | evConnect
  | evBegin
  | evNothingToMigrate
  | evCreateTable
  | evInsert (n : Nat)
  | evDropTable
  | evRename
  | evCreateIndexStmt
  | evCommit
  | evVerify (cols : List String)
  | evVerifyCounts (srcN tgtN : Nat)
  | evDelete (n : Nat)
  | evReportError
  | evRollback
  | evClose
deriving DecidableEq

/-- Outcome of the Python migration function: a normal `return b`, or an
exception escaping the function (the UnboundLocalError raised by `if conn:`
inside the except handler when the connect itself had failed). -/
inductive PyResult where
  | ret (b : Bool)
  | uncaught
deriving DecidableEq

/-- Result of one run: final database, Python outcome, event trace. -/
structure RunResult where
  db : DB
  res : PyResult
  events : List Event
deriving DecidableEq

/-- Injected failure point: which statement of the script, if any, raises.
`noFail` is a run in which no statement spontaneously fails (statements can
still fail deterministically, e.g. CREATE TABLE on an existing name). -/
inductive FailPoint where
  | noFail
  | atConnect
  | atIntrospect
  | atCreate
  | atInsert
  | atDrop
  | atRename
  | atIndexStmt
  | atCommit
  | atVerify
  | atDelete
deriving DecidableEq

/-- The except handler of every script, reached while `conn` is bound:
print the error, conn.rollback() (restoring the given rollback target),
conn.close(), return False.  After COMMIT the rollback target is the
current database itself, since rollback outside a transaction is a no-op. -/
def failCaught (rollbackTarget : DB) (evts : List Event) : RunResult :=
  ⟨rollbackTarget, .ret false, evts ++ [.evReportError, .evRollback, .evClose]⟩

/-- Events emitted by connecting and executing BEGIN TRANSACTION. -/
def connectBeginEvts : List Event := [.evConnect, .evBegin]

/-- Post-commit verification of the column-drop scripts: PRAGMA table_info
plus a print.  A failure here is caught, but the transaction is already
committed, so the rollback target is the committed database. -/
def stepVerify (fp : FailPoint) (db : DB) (evts : List Event) : RunResult :=
  if fp = .atVerify then failCaught db evts
  else ⟨db, .ret true, evts ++ [.evVerify (db.columnNames "ewcs_data"), .evClose]⟩

/-- conn.commit(): on success the transaction closes and the run proceeds to
the verification read. -/
def stepCommit (fp : FailPoint) (snap db : DB) (evts : List Event) : RunResult :=
  if fp = .atCommit then failCaught snap evts
  else stepVerify fp db (evts ++ [.evCommit])

/-- CREATE INDEX IF NOT EXISTS idx_ewcs_data_timestamp ON ewcs_data(timestamp). -/
def stepIndexRecreate (fp : FailPoint) (snap db : DB) (evts : List Event) : RunResult :=
  if fp = .atIndexStmt then failCaught snap evts
  else stepCommit fp snap (db.createIndexIfNotExists "idx_ewcs_data_timestamp" "ewcs_data")
    (evts ++ [.evCreateIndexStmt])

/-- ALTER TABLE ewcs_data_new RENAME TO ewcs_data; raises when a table named
ewcs_data still exists. -/
def stepRename (fp : FailPoint) (snap db : DB) (evts : List Event) : RunResult :=
  if fp = .atRename ∨ db.hasTable "ewcs_data" = true then failCaught snap evts
  else stepIndexRecreate fp snap (db.renameTable "ewcs_data_new" "ewcs_data")
    (evts ++ [.evRename])

/-- DROP TABLE ewcs_data; raises when the table does not exist. -/
def stepDrop (fp : FailPoint) (snap db : DB) (evts : List Event) : RunResult :=
  if fp = .atDrop ∨ db.hasTable "ewcs_data" = false then failCaught snap evts
  else stepRename fp snap (db.dropTable "ewcs_data") (evts ++ [.evDropTable])

/-- INSERT INTO ewcs_data_new (newCols…) SELECT newCols… FROM ewcs_data;
raises when a listed column is missing on either side; the script prints
cursor.rowcount, the number of rows copied. -/
def stepInsertCopy (newCols : List String) (fp : FailPoint) (snap db : DB)
    (evts : List Event) : RunResult :=
  if fp = .atInsert
     ∨ ¬ (newCols.all ((db.columnNames "ewcs_data").contains ·)
          && newCols.all ((db.columnNames "ewcs_data_new").contains ·)) = true then
    failCaught snap evts
  else
    stepDrop fp snap
      (db.setTable "ewcs_data_new"
        ⟨db.columnNames "ewcs_data_new",
         db.rowsOf "ewcs_data_new"
           ++ (db.rowsOf "ewcs_data").map
                (fun r => insertedRow (db.columnNames "ewcs_data_new") newCols
                  (db.columnNames "ewcs_data") r)⟩)
      (evts ++ [.evInsert (db.rowsOf "ewcs_data").length])

/-- CREATE TABLE ewcs_data_new (newCols…); raises when the name is taken. -/
def stepCreateSibling (newCols : List String) (fp : FailPoint) (snap db : DB)
    (evts : List Event) : RunResult :=
  if fp = .atCreate ∨ db.hasTable "ewcs_data_new" = true then failCaught snap evts
  else stepInsertCopy newCols fp snap (db.createTable "ewcs_data_new" newCols)
    (evts ++ [.evCreateTable])

/-- Shared body of migrate_cs125_current.py and migrate_power_save_mode.py
(the two scripts differ only in the column being dropped and the hardcoded
replacement column list): connect, BEGIN TRANSACTION, PRAGMA table_info,
and either the copy-swap pipeline (column present) or the
"nothing to migrate" no-op (column absent; close discards the empty
transaction).  A failed connect leaves `conn` unbound, so the handler's
`if conn:` raises and the exception escapes the function. -/
def migrateDropColumn (colName : String) (newCols : List String)
    (fp : FailPoint) (db0 : DB) : RunResult :=
  if fp = .atConnect then ⟨db0, .uncaught, [.evReportError]⟩
  else if fp = .atIntrospect then failCaught db0 connectBeginEvts
  else if colName ∈ db0.columnNames "ewcs_data" then
    stepCreateSibling newCols fp db0 db0 connectBeginEvts
  else
    ⟨db0, .ret true, connectBeginEvts ++ [.evNothingToMigrate, .evClose]⟩

/-- Column list of the CREATE TABLE / INSERT of migrate_cs125_current.py. -/
def cs125TargetCols : List String :=
  ["id", "timestamp", "station_name", "power_save_mode",
   "cs125_visibility", "cs125_synop", "cs125_temp", "cs125_humidity",
   "sht45_temp", "sht45_humidity", "rpi_temp",
   "chan1_current", "chan2_current", "chan3_current", "chan4_current",
   "pv_vol", "pv_cur", "load_vol", "load_cur", "bat_temp", "dev_temp",
   "charg_equip_stat", "dischg_equip_stat", "created_at"]

/-- Column list of the CREATE TABLE / INSERT of migrate_power_save_mode.py. -/
def psmTargetCols : List String :=
  ["id", "timestamp", "station_name",
   "cs125_visibility", "cs125_synop", "cs125_temp", "cs125_humidity",
   "sht45_temp", "sht45_humidity", "rpi_temp",
   "chan1_current", "chan2_current", "chan3_current", "chan4_current",
   "pv_vol", "pv_cur", "load_vol", "load_cur", "bat_temp", "dev_temp",
   "charg_equip_stat", "dischg_equip_stat", "created_at"]

def migrate_cs125_current (fp : FailPoint) (db : DB) : RunResult :=
  migrateDropColumn "cs125_current" cs125TargetCols fp db

def migrate_power_save_mode (fp : FailPoint) (db : DB) : RunResult :=
  migrateDropColumn "power_save_mode" psmTargetCols fp db

/-- ASCII case folding of a character code, as SQLite's default LIKE does
for the characters A-Z (and for no others). -/
def lowerCode (c : Char) : Nat :=
  if 65 ≤ c.toNat ∧ c.toNat ≤ 90 then c.toNat + 32 else c.toNat

/-- Decides whether the first code list is a prefix of the second. -/
def codesLeadWith : List Nat → List Nat → Bool
  | [], _ => true
  | _ :: _, [] => false
  | a :: as, b :: bs => a == b && codesLeadWith as bs

/-- SQLite `filename LIKE '%.fits'`: the string ends with ".fits" up to
ASCII case (the reversed pattern codes are "stif." = [115,116,105,102,46]). -/
def likeFitsStr (s : String) : Bool :=
  codesLeadWith [115, 116, 105, 102, 46] ((s.data.map lowerCode).reverse)

/-- Exact, case-sensitive "ends with \".fits\"" on the string bytes; the
strict reading of the suffix wording, used to compare against LIKE. -/
def endsFitsExact (s : String) : Bool :=
  codesLeadWith [115, 116, 105, 102, 46] ((s.data.map Char.toNat).reverse)

/-- LIKE applied to a stored value: NULL is not matched, and non-text values
coerce to digit strings that cannot end in ".fits". -/
def likeFits : SqlValue → Bool
  | .text s => likeFitsStr s
  | _ => false

/-- The WHERE predicate of migrate_images.py on a row of the source table. -/
def fitsPred (cols : List String) (r : List SqlValue) : Bool :=
  likeFits (lookupCell cols r "filename")

/-- Columns listed by the INSERT of migrate_images.py. -/
def imgListed : List String := ["timestamp", "filename", "created_at"]

/-- Post-commit verification of migrate_images.py: two COUNT reads plus
prints; a failure here is caught but the commit already happened. -/
def imgStepVerify (fp : FailPoint) (db : DB) (evts : List Event) : RunResult :=
  if fp = .atVerify then failCaught db evts
  else ⟨db, .ret true,
    evts ++ [.evVerifyCounts (db.rowsOf "ewcs_images").length
      (db.rowsOf "oasc_images").length, .evClose]⟩

def imgStepCommit (fp : FailPoint) (snap db : DB) (evts : List Event) : RunResult :=
  if fp = .atCommit then failCaught snap evts
  else imgStepVerify fp db (evts ++ [.evCommit])

/-- DELETE FROM ewcs_images WHERE filename LIKE '%.fits'; the script prints
cursor.rowcount, the number of rows deleted. -/
def imgStepDeleteRows (fp : FailPoint) (snap db : DB) (evts : List Event) : RunResult :=
  if fp = .atDelete then failCaught snap evts
  else
    imgStepCommit fp snap
      (db.setTable "ewcs_images"
        ⟨db.columnNames "ewcs_images",
         (db.rowsOf "ewcs_images").filter
           (fun r => !(fitsPred (db.columnNames "ewcs_images") r))⟩)
      (evts ++ [.evDelete ((db.rowsOf "ewcs_images").filter
          (fitsPred (db.columnNames "ewcs_images"))).length])

/-- INSERT INTO oasc_images (timestamp, filename, created_at)
SELECT … FROM ewcs_images WHERE filename LIKE '%.fits'; raises when a listed
column is missing on either side. -/
def imgStepInsertCopy (fp : FailPoint) (snap db : DB) (evts : List Event) : RunResult :=
  if fp = .atInsert
     ∨ ¬ (imgListed.all ((db.columnNames "ewcs_images").contains ·)
          && imgListed.all ((db.columnNames "oasc_images").contains ·)) = true then
    failCaught snap evts
  else
    imgStepDeleteRows fp snap
      (db.setTable "oasc_images"
        ⟨db.columnNames "oasc_images",
         db.rowsOf "oasc_images"
           ++ ((db.rowsOf "ewcs_images").filter
                 (fitsPred (db.columnNames "ewcs_images"))).map
                (fun r => insertedRow (db.columnNames "oasc_images") imgListed
                  (db.columnNames "ewcs_images") r)⟩)
      (evts ++ [.evInsert ((db.rowsOf "ewcs_images").filter
          (fitsPred (db.columnNames "ewcs_images"))).length])

/-- migrate_images.py: connect, BEGIN TRANSACTION, the two COUNT reads (they
raise when ewcs_images lacks a filename column or either table is missing),
then either the copy-and-delete pipeline (some matching row exists) or the
"nothing to migrate" no-op. -/
def migrate_images (fp : FailPoint) (db0 : DB) : RunResult :=
  if fp = .atConnect then ⟨db0, .uncaught, [.evReportError]⟩
  else if fp = .atIntrospect
       ∨ db0.hasTable "ewcs_images" = false
       ∨ "filename" ∉ db0.columnNames "ewcs_images"
       ∨ db0.hasTable "oasc_images" = false then
    failCaught db0 connectBeginEvts
  else if 0 < ((db0.rowsOf "ewcs_images").filter
      (fitsPred (db0.columnNames "ewcs_images"))).length then
    imgStepInsertCopy fp db0 db0 connectBeginEvts
  else
    ⟨db0, .ret true, connectBeginEvts ++ [.evNothingToMigrate, .evClose]⟩

/-- Exit status of the interpreter given the migration function's outcome:
sys.exit(0) after return True, sys.exit(1) after return False, and status 1
with a traceback when the exception escaped uncaught. -/
def exitCodeOf : PyResult → Nat
  | .ret true => 0
  | .ret false => 1
  | .uncaught => 1

/-- ASCII-folded character codes of a string, modelling str.lower() as the
scripts apply it to the one-letter confirmation answer. -/
def strLowerCodes (s : String) : List Nat :=
  s.data.map lowerCode

/-- The __main__ block of migrate_cs125_current.py: prompt, run the
migration only on a "y" answer, otherwise print "Migration cancelled." and
exit 0.  The code 121 is the letter y. -/
def mainCs125 (response : String) (fp : FailPoint) (db : DB) : Nat :=
  if strLowerCodes response = [121] then exitCodeOf (migrate_cs125_current fp db).res
  else 0

/-- The -y auto-confirm test of migrate_power_save_mode.py:
len(sys.argv) > 1 and sys.argv[1] == '-y'. -/
def autoConfirmPSM (argv : List String) : Bool :=
  match argv with
  | _ :: a1 :: _ => a1 == "-y"
  | _ => false

/-- The __main__ block of migrate_power_save_mode.py: with -y run directly;
otherwise prompt and exit 0 unless the answer lowercases to "y". -/
def mainPowerSaveMode (argv : List String) (response : String)
    (fp : FailPoint) (db : DB) : Nat :=
  if autoConfirmPSM argv = true then exitCodeOf (migrate_power_save_mode fp db).res
  else if strLowerCodes response = [121] then
    exitCodeOf (migrate_power_save_mode fp db).res
  else 0

/-- Statements that change the database, as opposed to reads and prints. -/
def mutatingEvent : Event → Bool
  | .evCreateTable | .evInsert _ | .evDropTable | .evRename
  | .evCreateIndexStmt | .evDelete _ => true
  | _ => false

/-- The trace from the COMMIT event on (empty when no commit happened). -/
def afterCommit (evts : List Event) : List Event :=
  evts.dropWhile (fun e => e != Event.evCommit)

/-- Total rowcount printed by INSERT statements of a trace. -/
def insertedCount (evts : List Event) : Nat :=
  (evts.map (fun e => match e with | .evInsert n => n | _ => 0)).sum

/-- Total rowcount printed by DELETE statements of a trace. -/
def deletedCount (evts : List Event) : Nat :=
  (evts.map (fun e => match e with | .evDelete n => n | _ => 0)).sum

/-- The (timestamp, filename, created_at) projection of a row. -/
def tripleOf (cols : List String) (r : List SqlValue) :
    SqlValue × SqlValue × SqlValue :=
  (lookupCell cols r "timestamp", lookupCell cols r "filename",
   lookupCell cols r "created_at")

/-- Combined multiset of (timestamp, filename, created_at) projections held
across ewcs_images and oasc_images. -/
def imageTriples (db : DB) : Multiset (SqlValue × SqlValue × SqlValue) :=
  ((db.rowsOf "ewcs_images").map (tripleOf (db.columnNames "ewcs_images"))
    ++ (db.rowsOf "oasc_images").map (tripleOf (db.columnNames "oasc_images")) :
    List (SqlValue × SqlValue × SqlValue))

/-- Exact, case-sensitive suffix test on a stored value, the strict reading
of "filename ends with .fits". -/
def endsFitsExactVal : SqlValue → Bool
  | .text s => endsFitsExact s
  | _ => false

/-- A table that has the column to drop but lacks most hardcoded target
columns, so the INSERT … SELECT raises deterministically. -/
def dbInsertFailureCase : DB :=
  ⟨[("ewcs_data", ⟨["id", "cs125_current"], []⟩)], []⟩

/-- A table from which the column to drop is already absent. -/
def dbColumnAbsent : DB :=
  ⟨[("ewcs_data", ⟨["id", "timestamp"], []⟩)], []⟩

/-- A table carrying the dropped column plus one extra column unknown to the
hardcoded replacement schema. -/
def dbTwoExtraCols : DB :=
  ⟨[("ewcs_data", ⟨cs125TargetCols ++ ["cs125_current", "extra_col"], []⟩)], []⟩

/-- The four-column scenario table of the specification: (id, ts, a, b)
with one row. -/
def dbSmallDrop : DB :=
  ⟨[("ewcs_data", ⟨["id", "ts", "a", "b"],
     [[.int 1, .int 5, .text "x", .int 9]]⟩)], []⟩

/-- The post-migration ewcs_data schema, as a stand-alone table. -/
def dbStdSchema : DB :=
  ⟨[("ewcs_data", ⟨cs125TargetCols, []⟩)], []⟩

/-- The pre-migration ewcs_data schema: the target columns plus the column
being dropped. -/
def dbFullSchema : DB :=
  ⟨[("ewcs_data", ⟨cs125TargetCols ++ ["cs125_current"], []⟩)], []⟩

/-- Image tables holding one matching and one non-matching source row, and
one pre-existing target row. -/
def dbImages : DB :=
  ⟨[("ewcs_images", ⟨["id", "timestamp", "filename", "created_at"],
      [[.int 1, .int 10, .text "a.jpg", .text "t1"],
       [.int 2, .int 20, .text "b.fits", .text "t2"]]⟩),
    ("oasc_images", ⟨["id", "timestamp", "filename", "created_at"],
      [[.int 9, .int 90, .text "z.fits", .text "t9"]]⟩)], []⟩

/-- Image tables whose single source row carries an upper-case .FITS name. -/
def dbImagesUpper : DB :=
  ⟨[("ewcs_images", ⟨["timestamp", "filename", "created_at"],
      [[.int 1, .text "A.FITS", .text "t1"]]⟩),
    ("oasc_images", ⟨["timestamp", "filename", "created_at"], []⟩)], []⟩

/-! ### Lookup lemmas for the table association list -/

theorem lookupTable_append_other {ts : List (String × Table)} {m n : String}
    (h : m ≠ n) (t : Table) :
    lookupTable (ts ++ [(n, t)]) m = lookupTable ts m := by
  induction ts with
  | nil => simp [lookupTable, Ne.symm h]
  | cons hd tl ih =>
    obtain ⟨a, b⟩ := hd
    by_cases hab : a = m <;> simp [lookupTable, hab, ih]

theorem lookupTable_append_self {ts : List (String × Table)} {n : String}
    (h : lookupTable ts n = none) (t : Table) :
    lookupTable (ts ++ [(n, t)]) n = some t := by
  induction ts with
  | nil => simp [lookupTable]
  | cons hd tl ih =>
    obtain ⟨a, b⟩ := hd
    by_cases hab : a = n
    · simp [lookupTable, hab] at h
    · simp only [lookupTable, hab] at h
      simp [lookupTable, hab, ih h]

theorem lookupTable_set_self {ts : List (String × Table)} {m : String}
    (h : (lookupTable ts m).isSome = true) (t : Table) :
    lookupTable (setTableList ts m t) m = some t := by
  induction ts with
  | nil => simp [lookupTable] at h
  | cons hd tl ih =>
    obtain ⟨a, b⟩ := hd
    by_cases hab : a = m
    · simp [setTableList, lookupTable, hab]
    · simp only [lookupTable, hab, if_false] at h
      simp [setTableList, lookupTable, hab, ih h]

theorem lookupTable_set_other {ts : List (String × Table)} {m m' : String}
    (h : m' ≠ m) (t : Table) :
    lookupTable (setTableList ts m t) m' = lookupTable ts m' := by
  induction ts with
  | nil => simp [setTableList, lookupTable]
  | cons hd tl ih =>
    obtain ⟨a, b⟩ := hd
    by_cases hab : a = m
    · subst hab
      simp [setTableList, lookupTable, Ne.symm h, ih]
    · by_cases ham : a = m' <;> simp [setTableList, lookupTable, hab, ham, h, ih]

theorem lookupTable_drop_self {ts : List (String × Table)} {m : String} :
    lookupTable (dropTableList ts m) m = none := by
  induction ts with
  | nil => simp [dropTableList, lookupTable]
  | cons hd tl ih =>
    obtain ⟨a, b⟩ := hd
    by_cases hab : a = m <;> simp [dropTableList, lookupTable, hab, ih]

theorem lookupTable_drop_other {ts : List (String × Table)} {m m' : String}
    (h : m' ≠ m) :
    lookupTable (dropTableList ts m) m' = lookupTable ts m' := by
  induction ts with
  | nil => simp [dropTableList, lookupTable]
  | cons hd tl ih =>
    obtain ⟨a, b⟩ := hd
    by_cases hab : a = m
    · subst hab
      simp [dropTableList, lookupTable, Ne.symm h, ih]
    · by_cases ham : a = m' <;> simp [dropTableList, lookupTable, hab, ham, h, ih]

theorem lookupTable_rename_self {ts : List (String × Table)} {o n : String}
    (h : lookupTable ts n = none) :
    lookupTable (renameTableList ts o n) n = lookupTable ts o := by
  induction ts with
  | nil => simp [renameTableList, lookupTable]
  | cons hd tl ih =>
    obtain ⟨a, b⟩ := hd
    by_cases hao : a = o
    · subst hao
      simp [renameTableList, lookupTable]
    · by_cases han : a = n
      · simp [lookupTable, han] at h
      · simp only [lookupTable, han, if_false] at h
        simp [renameTableList, lookupTable, hao, han, ih h]

theorem lookupTable_rename_from {ts : List (String × Table)} {o n : String}
    (h : o ≠ n) :
    lookupTable (renameTableList ts o n) o = none := by
  induction ts with
  | nil => simp [renameTableList, lookupTable]
  | cons hd tl ih =>
    obtain ⟨a, b⟩ := hd
    by_cases hao : a = o <;> simp [renameTableList, lookupTable, hao, Ne.symm h, ih]

theorem lookupTable_rename_other {ts : List (String × Table)} {o n m : String}
    (h1 : m ≠ o) (h2 : m ≠ n) :
    lookupTable (renameTableList ts o n) m = lookupTable ts m := by
  induction ts with
  | nil => simp [renameTableList, lookupTable]
  | cons hd tl ih =>
    obtain ⟨a, b⟩ := hd
    by_cases hao : a = o
    · subst hao
      simp [renameTableList, lookupTable, Ne.symm h1, Ne.symm h2, ih]
    · by_cases ham : a = m <;> simp [renameTableList, lookupTable, hao, ham, h1, ih]

theorem hasTable_false_iff {db : DB} {m : String} :
    db.hasTable m = false ↔ db.getTable m = none := by
  unfold DB.hasTable
  cases db.getTable m <;> simp

theorem columnNames_eq {db : DB} {m : String} {t : Table}
    (h : db.getTable m = some t) : db.columnNames m = t.cols := by
  simp [DB.columnNames, h]

theorem rowsOf_eq {db : DB} {m : String} {t : Table}
    (h : db.getTable m = some t) : db.rowsOf m = t.rows := by
  simp [DB.rowsOf, h]

theorem getTable_createIndex (db : DB) (idx tbl m : String) :
    (db.createIndexIfNotExists idx tbl).getTable m = db.getTable m := by
  unfold DB.createIndexIfNotExists DB.getTable
  split <;> rfl

/-! ### Cell-lookup lemmas -/

theorem firstIdx_isSome_of_mem {l : List String} {c : String} (h : c ∈ l) :
    (firstIdx l c).isSome = true := by
  induction l with
  | nil => simp at h
  | cons a as ih =>
    by_cases hac : a = c
    · simp [firstIdx, hac]
    · rcases List.mem_cons.mp h with h' | h'
      · exact absurd h'.symm hac
      · simp only [firstIdx, hac, if_false]
        cases hfi : firstIdx as c with
        | none => rw [hfi] at ih; simp [ih h'] at *
        | some i => simp

theorem lookupCell_map_self {l : List String} {f : String → SqlValue} {c : String}
    (h : c ∈ l) :
    lookupCell l (l.map f) c = f c := by
  induction l with
  | nil => simp at h
  | cons a as ih =>
    by_cases hac : a = c
    · subst hac
      simp [lookupCell, firstIdx]
    · rcases List.mem_cons.mp h with h' | h'
      · exact absurd h'.symm hac
      · have hsome := firstIdx_isSome_of_mem h'
        obtain ⟨i, hi⟩ := Option.isSome_iff_exists.mp hsome
        have hh := ih h'
        simp only [lookupCell, hi] at hh
        simp only [lookupCell, firstIdx, hac, if_false, hi, Option.map_some']
        simpa using hh

theorem lookupCell_insertedRow {targetCols listed srcCols : List String}
    {r : List SqlValue} {c : String}
    (hmem : c ∈ targetCols) (hl : listed.contains c = true) :
    lookupCell targetCols (insertedRow targetCols listed srcCols r) c
      = lookupCell srcCols r c := by
  unfold insertedRow
  rw [lookupCell_map_self hmem, if_pos hl]

theorem lookupCell_nil (cols : List String) (c : String) :
    lookupCell cols [] c = .null := by
  unfold lookupCell
  cases firstIdx cols c <;> simp

theorem all_contains_self (l : List String) : l.all (l.contains ·) = true := by
  simp only [List.all_eq_true]
  intro x hx
  simpa using hx

/-! ### Failure behaviour of the column-drop pipeline -/

theorem stepVerify_events_sup {fp : FailPoint} {db : DB} {evts : List Event}
    {e : Event} (h : e ∈ evts) : e ∈ (stepVerify fp db evts).events := by
  unfold stepVerify failCaught
  split <;> simp [h]

theorem stepVerify_db_eq (fp : FailPoint) (db : DB) (evts : List Event) :
    (stepVerify fp db evts).db = db := by
  unfold stepVerify failCaught
  split <;> rfl

theorem stepCommit_fail {fp : FailPoint} {snap db : DB} {evts : List Event}
    (_h1 : (stepCommit fp snap db evts).res = .ret false)
    (h2 : Event.evCommit ∉ (stepCommit fp snap db evts).events) :
    (stepCommit fp snap db evts).db = snap := by
  by_cases hc : fp = FailPoint.atCommit
  · simp [stepCommit, hc, failCaught]
  · simp only [stepCommit, if_neg hc] at h2
    exact absurd (stepVerify_events_sup (by simp)) h2

theorem stepIndexRecreate_fail {fp : FailPoint} {snap db : DB} {evts : List Event}
    (h1 : (stepIndexRecreate fp snap db evts).res = .ret false)
    (h2 : Event.evCommit ∉ (stepIndexRecreate fp snap db evts).events) :
    (stepIndexRecreate fp snap db evts).db = snap := by
  by_cases hc : fp = FailPoint.atIndexStmt
  · simp [stepIndexRecreate, hc, failCaught]
  · simp only [stepIndexRecreate, if_neg hc] at h1 h2 ⊢
    exact stepCommit_fail h1 h2

theorem stepRename_fail {fp : FailPoint} {snap db : DB} {evts : List Event}
    (h1 : (stepRename fp snap db evts).res = .ret false)
    (h2 : Event.evCommit ∉ (stepRename fp snap db evts).events) :
    (stepRename fp snap db evts).db = snap := by
  by_cases hc : (fp = FailPoint.atRename ∨ db.hasTable "ewcs_data" = true)
  · simp [stepRename, hc, failCaught]
  · simp only [stepRename, if_neg hc] at h1 h2 ⊢
    exact stepIndexRecreate_fail h1 h2

theorem stepDrop_fail {fp : FailPoint} {snap db : DB} {evts : List Event}
    (h1 : (stepDrop fp snap db evts).res = .ret false)
    (h2 : Event.evCommit ∉ (stepDrop fp snap db evts).events) :
    (stepDrop fp snap db evts).db = snap := by
  by_cases hc : (fp = FailPoint.atDrop ∨ db.hasTable "ewcs_data" = false)
  · simp [stepDrop, hc, failCaught]
  · simp only [stepDrop, if_neg hc] at h1 h2 ⊢
    exact stepRename_fail h1 h2

theorem stepInsertCopy_fail {newCols : List String} {fp : FailPoint}
    {snap db : DB} {evts : List Event}
    (h1 : (stepInsertCopy newCols fp snap db evts).res = .ret false)
    (h2 : Event.evCommit ∉ (stepInsertCopy newCols fp snap db evts).events) :
    (stepInsertCopy newCols fp snap db evts).db = snap := by
  by_cases hc : (fp = FailPoint.atInsert
      ∨ ¬ (newCols.all ((db.columnNames "ewcs_data").contains ·)
           && newCols.all ((db.columnNames "ewcs_data_new").contains ·)) = true)
  · unfold stepInsertCopy
    rw [if_pos hc]
    rfl
  · simp only [stepInsertCopy, if_neg hc] at h1 h2 ⊢
    exact stepDrop_fail h1 h2

theorem stepCreateSibling_fail {newCols : List String} {fp : FailPoint}
    {snap db : DB} {evts : List Event}
    (h1 : (stepCreateSibling newCols fp snap db evts).res = .ret false)
    (h2 : Event.evCommit ∉ (stepCreateSibling newCols fp snap db evts).events) :
    (stepCreateSibling newCols fp snap db evts).db = snap := by
  by_cases hc : (fp = FailPoint.atCreate ∨ db.hasTable "ewcs_data_new" = true)
  · simp [stepCreateSibling, hc, failCaught]
  · simp only [stepCreateSibling, if_neg hc] at h1 h2 ⊢
    exact stepInsertCopy_fail h1 h2

/-- A caught failure before COMMIT rolls the whole transaction back: the
final database is the initial one. -/
theorem dropColumn_fail_db {c : String} {newCols : List String} {fp : FailPoint}
    {db : DB}
    (h1 : (migrateDropColumn c newCols fp db).res = .ret false)
    (h2 : Event.evCommit ∉ (migrateDropColumn c newCols fp db).events) :
    (migrateDropColumn c newCols fp db).db = db := by
  by_cases h0 : fp = FailPoint.atConnect
  · simp [migrateDropColumn, h0] at h1
  · by_cases hi : fp = FailPoint.atIntrospect
    · simp [migrateDropColumn, h0, hi, failCaught]
    · by_cases hm : c ∈ db.columnNames "ewcs_data"
      · simp only [migrateDropColumn, if_neg h0, if_neg hi, if_pos hm] at h1 h2 ⊢
        exact stepCreateSibling_fail h1 h2
      · simp [migrateDropColumn, h0, hi, hm]

/-! ### Rollback is called whenever the handler caught a failure -/

theorem stepVerify_rollback {fp : FailPoint} {db : DB} {evts : List Event}
    (h : (stepVerify fp db evts).res = .ret false) :
    Event.evRollback ∈ (stepVerify fp db evts).events := by
  by_cases hc : fp = FailPoint.atVerify
  · simp [stepVerify, hc, failCaught]
  · simp only [stepVerify, if_neg hc] at h
    simp at h

theorem stepCommit_rollback {fp : FailPoint} {snap db : DB} {evts : List Event}
    (h : (stepCommit fp snap db evts).res = .ret false) :
    Event.evRollback ∈ (stepCommit fp snap db evts).events := by
  by_cases hc : fp = FailPoint.atCommit
  · simp [stepCommit, hc, failCaught]
  · simp only [stepCommit, if_neg hc] at h ⊢
    exact stepVerify_rollback h

theorem stepIndexRecreate_rollback {fp : FailPoint} {snap db : DB} {evts : List Event}
    (h : (stepIndexRecreate fp snap db evts).res = .ret false) :
    Event.evRollback ∈ (stepIndexRecreate fp snap db evts).events := by
  by_cases hc : fp = FailPoint.atIndexStmt
  · simp [stepIndexRecreate, hc, failCaught]
  · simp only [stepIndexRecreate, if_neg hc] at h ⊢
    exact stepCommit_rollback h

theorem stepRename_rollback {fp : FailPoint} {snap db : DB} {evts : List Event}
    (h : (stepRename fp snap db evts).res = .ret false) :
    Event.evRollback ∈ (stepRename fp snap db evts).events := by
  by_cases hc : (fp = FailPoint.atRename ∨ db.hasTable "ewcs_data" = true)
  · simp [stepRename, hc, failCaught]
  · simp only [stepRename, if_neg hc] at h ⊢
    exact stepIndexRecreate_rollback h

theorem stepDrop_rollback {fp : FailPoint} {snap db : DB} {evts : List Event}
    (h : (stepDrop fp snap db evts).res = .ret false) :
    Event.evRollback ∈ (stepDrop fp snap db evts).events := by
  by_cases hc : (fp = FailPoint.atDrop ∨ db.hasTable "ewcs_data" = false)
  · simp [stepDrop, hc, failCaught]
  · simp only [stepDrop, if_neg hc] at h ⊢
    exact stepRename_rollback h

theorem stepInsertCopy_rollback {newCols : List String} {fp : FailPoint}
    {snap db : DB} {evts : List Event}
    (h : (stepInsertCopy newCols fp snap db evts).res = .ret false) :
    Event.evRollback ∈ (stepInsertCopy newCols fp snap db evts).events := by
  by_cases hc : (fp = FailPoint.atInsert
      ∨ ¬ (newCols.all ((db.columnNames "ewcs_data").contains ·)
           && newCols.all ((db.columnNames "ewcs_data_new").contains ·)) = true)
  · unfold stepInsertCopy
    rw [if_pos hc]
    simp [failCaught]
  · simp only [stepInsertCopy, if_neg hc] at h ⊢
    exact stepDrop_rollback h

theorem stepCreateSibling_rollback {newCols : List String} {fp : FailPoint}
    {snap db : DB} {evts : List Event}
    (h : (stepCreateSibling newCols fp snap db evts).res = .ret false) :
    Event.evRollback ∈ (stepCreateSibling newCols fp snap db evts).events := by
  by_cases hc : (fp = FailPoint.atCreate ∨ db.hasTable "ewcs_data_new" = true)
  · simp [stepCreateSibling, hc, failCaught]
  · simp only [stepCreateSibling, if_neg hc] at h ⊢
    exact stepInsertCopy_rollback h

theorem dropColumn_fail_rollback {c : String} {newCols : List String}
    {fp : FailPoint} {db : DB}
    (h : (migrateDropColumn c newCols fp db).res = .ret false) :
    Event.evRollback ∈ (migrateDropColumn c newCols fp db).events := by
  by_cases h0 : fp = FailPoint.atConnect
  · simp [migrateDropColumn, h0] at h
  · by_cases hi : fp = FailPoint.atIntrospect
    · simp [migrateDropColumn, h0, hi, failCaught]
    · by_cases hm : c ∈ db.columnNames "ewcs_data"
      · simp only [migrateDropColumn, if_neg h0, if_neg hi, if_pos hm] at h ⊢
        exact stepCreateSibling_rollback h
      · simp [migrateDropColumn, h0, hi, hm] at h

/-! ### Either the database is untouched or the run committed -/

theorem stepCommit_db_or {fp : FailPoint} {snap db : DB} {evts : List Event} :
    (stepCommit fp snap db evts).db = snap
      ∨ Event.evCommit ∈ (stepCommit fp snap db evts).events := by
  by_cases hc : fp = FailPoint.atCommit
  · left
    simp [stepCommit, hc, failCaught]
  · right
    simp only [stepCommit, if_neg hc]
    exact stepVerify_events_sup (by simp)

theorem stepIndexRecreate_db_or {fp : FailPoint} {snap db : DB} {evts : List Event} :
    (stepIndexRecreate fp snap db evts).db = snap
      ∨ Event.evCommit ∈ (stepIndexRecreate fp snap db evts).events := by
  by_cases hc : fp = FailPoint.atIndexStmt
  · left
    simp [stepIndexRecreate, hc, failCaught]
  · simp only [stepIndexRecreate, if_neg hc]
    exact stepCommit_db_or

theorem stepRename_db_or {fp : FailPoint} {snap db : DB} {evts : List Event} :
    (stepRename fp snap db evts).db = snap
      ∨ Event.evCommit ∈ (stepRename fp snap db evts).events := by
  by_cases hc : (fp = FailPoint.atRename ∨ db.hasTable "ewcs_data" = true)
  · left
    simp [stepRename, hc, failCaught]
  · simp only [stepRename, if_neg hc]
    exact stepIndexRecreate_db_or

theorem stepDrop_db_or {fp : FailPoint} {snap db : DB} {evts : List Event} :
    (stepDrop fp snap db evts).db = snap
      ∨ Event.evCommit ∈ (stepDrop fp snap db evts).events := by
  by_cases hc : (fp = FailPoint.atDrop ∨ db.hasTable "ewcs_data" = false)
  · left
    simp [stepDrop, hc, failCaught]
  · simp only [stepDrop, if_neg hc]
    exact stepRename_db_or

theorem stepInsertCopy_db_or {newCols : List String} {fp : FailPoint}
    {snap db : DB} {evts : List Event} :
    (stepInsertCopy newCols fp snap db evts).db = snap
      ∨ Event.evCommit ∈ (stepInsertCopy newCols fp snap db evts).events := by
  by_cases hc : (fp = FailPoint.atInsert
      ∨ ¬ (newCols.all ((db.columnNames "ewcs_data").contains ·)
           && newCols.all ((db.columnNames "ewcs_data_new").contains ·)) = true)
  · left
    unfold stepInsertCopy
    rw [if_pos hc]
    rfl
  · simp only [stepInsertCopy, if_neg hc]
    exact stepDrop_db_or

theorem stepCreateSibling_db_or {newCols : List String} {fp : FailPoint}
    {snap db : DB} {evts : List Event} :
    (stepCreateSibling newCols fp snap db evts).db = snap
      ∨ Event.evCommit ∈ (stepCreateSibling newCols fp snap db evts).events := by
  by_cases hc : (fp = FailPoint.atCreate ∨ db.hasTable "ewcs_data_new" = true)
  · left
    simp [stepCreateSibling, hc, failCaught]
  · simp only [stepCreateSibling, if_neg hc]
    exact stepInsertCopy_db_or

theorem dropColumn_db_or (c : String) (newCols : List String) (fp : FailPoint)
    (db : DB) :
    (migrateDropColumn c newCols fp db).db = db
      ∨ Event.evCommit ∈ (migrateDropColumn c newCols fp db).events := by
  by_cases h0 : fp = FailPoint.atConnect
  · left
    simp [migrateDropColumn, h0]
  · by_cases hi : fp = FailPoint.atIntrospect
    · left
      simp [migrateDropColumn, h0, hi, failCaught]
    · by_cases hm : c ∈ db.columnNames "ewcs_data"
      · simp only [migrateDropColumn, if_neg h0, if_neg hi, if_pos hm]
        exact stepCreateSibling_db_or
      · left
        simp [migrateDropColumn, h0, hi, hm]

/-! ### Reaching COMMIT pins down the branch conditions -/

theorem dropColumn_commit_inv {c : String} {newCols : List String}
    {fp : FailPoint} {db : DB}
    (h : Event.evCommit ∈ (migrateDropColumn c newCols fp db).events) :
    ∃ t, db.getTable "ewcs_data" = some t ∧ c ∈ t.cols
      ∧ db.hasTable "ewcs_data_new" = false
      ∧ newCols.all (t.cols.contains ·) = true := by
  by_cases h0 : fp = FailPoint.atConnect
  · simp [migrateDropColumn, h0] at h
  by_cases hi : fp = FailPoint.atIntrospect
  · simp [migrateDropColumn, h0, hi, failCaught, connectBeginEvts] at h
  by_cases hm : c ∈ db.columnNames "ewcs_data"
  case neg => simp [migrateDropColumn, h0, hi, hm, connectBeginEvts] at h
  simp only [migrateDropColumn, if_neg h0, if_neg hi, if_pos hm] at h
  have hsome : ∃ t, db.getTable "ewcs_data" = some t := by
    cases hg : db.getTable "ewcs_data" with
    | none =>
      rw [DB.columnNames, hg] at hm
      simp at hm
    | some t => exact ⟨t, rfl⟩
  obtain ⟨t, ht⟩ := hsome
  have hcc : c ∈ t.cols := by rwa [columnNames_eq ht] at hm
  by_cases h3 : (fp = FailPoint.atCreate ∨ db.hasTable "ewcs_data_new" = true)
  · unfold stepCreateSibling at h
    rw [if_pos h3] at h
    simp [failCaught, connectBeginEvts] at h
  have hnew : db.hasTable "ewcs_data_new" = false := by
    simpa using (not_or.mp h3).2
  simp only [stepCreateSibling, if_neg h3] at h
  have g1d : (db.createTable "ewcs_data_new" newCols).getTable "ewcs_data" = some t := by
    unfold DB.createTable DB.getTable
    rw [lookupTable_append_other (by decide)]
    exact ht
  by_cases h4 : (fp = FailPoint.atInsert
      ∨ ¬ (newCols.all (((db.createTable "ewcs_data_new" newCols).columnNames
              "ewcs_data").contains ·)
           && newCols.all (((db.createTable "ewcs_data_new" newCols).columnNames
              "ewcs_data_new").contains ·)) = true)
  · unfold stepInsertCopy at h
    rw [if_pos h4] at h
    simp [failCaught, connectBeginEvts] at h
  · have hb := (not_or.mp h4).2
    have hb' : (newCols.all (((db.createTable "ewcs_data_new" newCols).columnNames
          "ewcs_data").contains ·)
        && newCols.all (((db.createTable "ewcs_data_new" newCols).columnNames
          "ewcs_data_new").contains ·)) = true := by
      simpa using hb
    have hall : newCols.all (t.cols.contains ·) = true := by
      have := (Bool.and_eq_true _ _).mp hb' |>.1
      rwa [columnNames_eq g1d] at this
    exact ⟨t, ht, hcc, hnew, hall⟩

/-! ### The successful run, characterized end to end -/

theorem dropColumn_success_run {c : String} {newCols : List String} {db : DB}
    {t : Table}
    (ht : db.getTable "ewcs_data" = some t)
    (hc : c ∈ t.cols)
    (hnew : db.hasTable "ewcs_data_new" = false)
    (hall : newCols.all (t.cols.contains ·) = true) :
    ∃ fdb : DB,
      fdb.getTable "ewcs_data"
          = some ⟨newCols, t.rows.map (fun r => insertedRow newCols newCols t.cols r)⟩
      ∧ fdb.getTable "ewcs_data_new" = none
      ∧ migrateDropColumn c newCols .noFail db
          = ⟨fdb, .ret true,
             [.evConnect, .evBegin, .evCreateTable, .evInsert t.rows.length,
              .evDropTable, .evRename, .evCreateIndexStmt, .evCommit,
              .evVerify newCols, .evClose]⟩
      ∧ migrateDropColumn c newCols .atVerify db
          = ⟨fdb, .ret false,
             [.evConnect, .evBegin, .evCreateTable, .evInsert t.rows.length,
              .evDropTable, .evRename, .evCreateIndexStmt, .evCommit,
              .evReportError, .evRollback, .evClose]⟩ := by
  have hnone : db.getTable "ewcs_data_new" = none := hasTable_false_iff.mp hnew
  have hmemD : c ∈ db.columnNames "ewcs_data" := by
    rw [columnNames_eq ht]
    exact hc
  have hdn : ("ewcs_data" : String) ≠ "ewcs_data_new" := by decide
  -- step 3: the sibling table
  have g1d : (db.createTable "ewcs_data_new" newCols).getTable "ewcs_data" = some t := by
    unfold DB.createTable DB.getTable
    rw [lookupTable_append_other hdn]
    exact ht
  have g1n : (db.createTable "ewcs_data_new" newCols).getTable "ewcs_data_new"
      = some ⟨newCols, []⟩ := by
    unfold DB.createTable DB.getTable
    exact lookupTable_append_self hnone _
  -- step 4: the copied rows
  have harg2 : (db.createTable "ewcs_data_new" newCols).setTable "ewcs_data_new"
        ⟨(db.createTable "ewcs_data_new" newCols).columnNames "ewcs_data_new",
         (db.createTable "ewcs_data_new" newCols).rowsOf "ewcs_data_new"
           ++ ((db.createTable "ewcs_data_new" newCols).rowsOf "ewcs_data").map
                (fun r => insertedRow
                  ((db.createTable "ewcs_data_new" newCols).columnNames "ewcs_data_new")
                  newCols
                  ((db.createTable "ewcs_data_new" newCols).columnNames "ewcs_data") r)⟩
      = (db.createTable "ewcs_data_new" newCols).setTable "ewcs_data_new"
        ⟨newCols, t.rows.map (fun r => insertedRow newCols newCols t.cols r)⟩ := by
    rw [columnNames_eq g1n, rowsOf_eq g1n, rowsOf_eq g1d, columnNames_eq g1d]
    simp
  set db2 := (db.createTable "ewcs_data_new" newCols).setTable "ewcs_data_new"
      ⟨newCols, t.rows.map (fun r => insertedRow newCols newCols t.cols r)⟩ with hdb2
  have g2d : db2.getTable "ewcs_data" = some t := by
    rw [hdb2]
    unfold DB.setTable DB.getTable
    rw [lookupTable_set_other hdn]
    exact g1d
  have g2n : db2.getTable "ewcs_data_new"
      = some ⟨newCols, t.rows.map (fun r => insertedRow newCols newCols t.cols r)⟩ := by
    rw [hdb2]
    unfold DB.setTable DB.getTable
    apply lookupTable_set_self
    show ((db.createTable "ewcs_data_new" newCols).getTable "ewcs_data_new").isSome = true
    rw [g1n]
    rfl
  -- step 5: drop the original
  set db3 := db2.dropTable "ewcs_data" with hdb3
  have g3d : db3.getTable "ewcs_data" = none := by
    rw [hdb3]
    unfold DB.dropTable DB.getTable
    exact lookupTable_drop_self
  have g3n : db3.getTable "ewcs_data_new"
      = some ⟨newCols, t.rows.map (fun r => insertedRow newCols newCols t.cols r)⟩ := by
    rw [hdb3]
    unfold DB.dropTable DB.getTable
    rw [lookupTable_drop_other (Ne.symm hdn)]
    exact g2n
  -- step 6: rename
  set db4 := db3.renameTable "ewcs_data_new" "ewcs_data" with hdb4
  have g4d : db4.getTable "ewcs_data"
      = some ⟨newCols, t.rows.map (fun r => insertedRow newCols newCols t.cols r)⟩ := by
    rw [hdb4]
    unfold DB.renameTable DB.getTable
    rw [lookupTable_rename_self g3d]
    exact g3n
  have g4n : db4.getTable "ewcs_data_new" = none := by
    rw [hdb4]
    unfold DB.renameTable DB.getTable
    exact lookupTable_rename_from (Ne.symm hdn)
  -- step 7: the index
  set db5 := db4.createIndexIfNotExists "idx_ewcs_data_timestamp" "ewcs_data" with hdb5
  have g5d : db5.getTable "ewcs_data"
      = some ⟨newCols, t.rows.map (fun r => insertedRow newCols newCols t.cols r)⟩ := by
    rw [hdb5, getTable_createIndex]
    exact g4d
  have g5n : db5.getTable "ewcs_data_new" = none := by
    rw [hdb5, getTable_createIndex]
    exact g4n
  -- the shared pipeline from CREATE TABLE up to just before the verify read
  have echain : ∀ fp : FailPoint, fp ≠ .atCreate → fp ≠ .atInsert → fp ≠ .atDrop →
      fp ≠ .atRename → fp ≠ .atIndexStmt → fp ≠ .atCommit →
      stepCreateSibling newCols fp db db connectBeginEvts
        = stepVerify fp db5
            [.evConnect, .evBegin, .evCreateTable, .evInsert t.rows.length,
             .evDropTable, .evRename, .evCreateIndexStmt, .evCommit] := by
    intro fp hA hB hC hD hE hF
    unfold stepCreateSibling
    rw [if_neg (by simp [hA, hnew])]
    unfold stepInsertCopy
    rw [if_neg (by
      rw [columnNames_eq g1d, columnNames_eq g1n, hall, all_contains_self]
      simp [hB])]
    rw [harg2, rowsOf_eq g1d]
    unfold stepDrop
    rw [if_neg (by
      have h2t : db2.hasTable "ewcs_data" = true := by
        unfold DB.hasTable
        rw [g2d]
        rfl
      simp [hC, h2t])]
    unfold stepRename
    rw [if_neg (by
      have h3t : db3.hasTable "ewcs_data" = false := hasTable_false_iff.mpr g3d
      simp [hD, h3t])]
    unfold stepIndexRecreate
    rw [if_neg hE]
    unfold stepCommit
    rw [if_neg hF]
    rfl
  refine ⟨db5, g5d, g5n, ?_, ?_⟩
  · have e1 : migrateDropColumn c newCols .noFail db
        = stepCreateSibling newCols .noFail db db connectBeginEvts := by
      unfold migrateDropColumn
      rw [if_neg (by decide), if_neg (by decide), if_pos hmemD]
    rw [e1, echain .noFail (by decide) (by decide) (by decide) (by decide)
      (by decide) (by decide)]
    unfold stepVerify
    rw [if_neg (by decide), columnNames_eq g5d]
    rfl
  · have e1 : migrateDropColumn c newCols .atVerify db
        = stepCreateSibling newCols .atVerify db db connectBeginEvts := by
      unfold migrateDropColumn
      rw [if_neg (by decide), if_neg (by decide), if_pos hmemD]
    rw [e1, echain .atVerify (by decide) (by decide) (by decide) (by decide)
      (by decide) (by decide)]
    unfold stepVerify
    rw [if_pos rfl]
    rfl

/-! ### The no-op branch and the runs that return True -/

theorem dropColumn_noop {c : String} {newCols : List String} {fp : FailPoint}
    {db : DB} (h0 : fp ≠ .atConnect) (hi : fp ≠ .atIntrospect)
    (hm : c ∉ db.columnNames "ewcs_data") :
    migrateDropColumn c newCols fp db
      = ⟨db, .ret true, [.evConnect, .evBegin, .evNothingToMigrate, .evClose]⟩ := by
  unfold migrateDropColumn
  rw [if_neg h0, if_neg hi, if_neg hm]
  rfl

theorem stepCommit_true {fp : FailPoint} {snap db : DB} {evts : List Event}
    (h : (stepCommit fp snap db evts).res = .ret true) :
    Event.evCommit ∈ (stepCommit fp snap db evts).events := by
  by_cases hc : fp = FailPoint.atCommit
  · simp [stepCommit, hc, failCaught] at h
  · simp only [stepCommit, if_neg hc]
    exact stepVerify_events_sup (by simp)

theorem stepIndexRecreate_true {fp : FailPoint} {snap db : DB} {evts : List Event}
    (h : (stepIndexRecreate fp snap db evts).res = .ret true) :
    Event.evCommit ∈ (stepIndexRecreate fp snap db evts).events := by
  by_cases hc : fp = FailPoint.atIndexStmt
  · simp [stepIndexRecreate, hc, failCaught] at h
  · simp only [stepIndexRecreate, if_neg hc] at h ⊢
    exact stepCommit_true h

theorem stepRename_true {fp : FailPoint} {snap db : DB} {evts : List Event}
    (h : (stepRename fp snap db evts).res = .ret true) :
    Event.evCommit ∈ (stepRename fp snap db evts).events := by
  by_cases hc : (fp = FailPoint.atRename ∨ db.hasTable "ewcs_data" = true)
  · simp [stepRename, hc, failCaught] at h
  · simp only [stepRename, if_neg hc] at h ⊢
    exact stepIndexRecreate_true h

theorem stepDrop_true {fp : FailPoint} {snap db : DB} {evts : List Event}
    (h : (stepDrop fp snap db evts).res = .ret true) :
    Event.evCommit ∈ (stepDrop fp snap db evts).events := by
  by_cases hc : (fp = FailPoint.atDrop ∨ db.hasTable "ewcs_data" = false)
  · simp [stepDrop, hc, failCaught] at h
  · simp only [stepDrop, if_neg hc] at h ⊢
    exact stepRename_true h

theorem stepInsertCopy_true {newCols : List String} {fp : FailPoint}
    {snap db : DB} {evts : List Event}
    (h : (stepInsertCopy newCols fp snap db evts).res = .ret true) :
    Event.evCommit ∈ (stepInsertCopy newCols fp snap db evts).events := by
  by_cases hc : (fp = FailPoint.atInsert
      ∨ ¬ (newCols.all ((db.columnNames "ewcs_data").contains ·)
           && newCols.all ((db.columnNames "ewcs_data_new").contains ·)) = true)
  · unfold stepInsertCopy at h
    rw [if_pos hc] at h
    simp [failCaught] at h
  · simp only [stepInsertCopy, if_neg hc] at h ⊢
    exact stepDrop_true h

theorem stepCreateSibling_true {newCols : List String} {fp : FailPoint}
    {snap db : DB} {evts : List Event}
    (h : (stepCreateSibling newCols fp snap db evts).res = .ret true) :
    Event.evCommit ∈ (stepCreateSibling newCols fp snap db evts).events := by
  by_cases hc : (fp = FailPoint.atCreate ∨ db.hasTable "ewcs_data_new" = true)
  · simp [stepCreateSibling, hc, failCaught] at h
  · simp only [stepCreateSibling, if_neg hc] at h ⊢
    exact stepInsertCopy_true h

/-- A run that returned True without committing took the no-op branch. -/
theorem dropColumn_true_nocommit {c : String} {newCols : List String}
    {fp : FailPoint} {db : DB}
    (h1 : (migrateDropColumn c newCols fp db).res = .ret true)
    (h2 : Event.evCommit ∉ (migrateDropColumn c newCols fp db).events) :
    migrateDropColumn c newCols fp db
        = ⟨db, .ret true, [.evConnect, .evBegin, .evNothingToMigrate, .evClose]⟩
      ∧ c ∉ db.columnNames "ewcs_data" := by
  by_cases h0 : fp = FailPoint.atConnect
  · simp [migrateDropColumn, h0] at h1
  by_cases hi : fp = FailPoint.atIntrospect
  · simp [migrateDropColumn, h0, hi, failCaught] at h1
  by_cases hm : c ∈ db.columnNames "ewcs_data"
  · exfalso
    simp only [migrateDropColumn, if_neg h0, if_neg hi, if_pos hm] at h1 h2
    exact h2 (stepCreateSibling_true h1)
  · exact ⟨dropColumn_noop h0 hi hm, hm⟩

/-! ### Failure and success behaviour of the image-move pipeline -/

theorem imgStepVerify_events_sup {fp : FailPoint} {db : DB} {evts : List Event}
    {e : Event} (h : e ∈ evts) : e ∈ (imgStepVerify fp db evts).events := by
  unfold imgStepVerify failCaught
  split <;> simp [h]

theorem imgStepVerify_db_eq (fp : FailPoint) (db : DB) (evts : List Event) :
    (imgStepVerify fp db evts).db = db := by
  unfold imgStepVerify failCaught
  split <;> rfl

theorem imgStepCommit_fail {fp : FailPoint} {snap db : DB} {evts : List Event}
    (_h1 : (imgStepCommit fp snap db evts).res = .ret false)
    (h2 : Event.evCommit ∉ (imgStepCommit fp snap db evts).events) :
    (imgStepCommit fp snap db evts).db = snap := by
  by_cases hc : fp = FailPoint.atCommit
  · simp [imgStepCommit, hc, failCaught]
  · simp only [imgStepCommit, if_neg hc] at h2
    exact absurd (imgStepVerify_events_sup (by simp)) h2

theorem imgStepDeleteRows_fail {fp : FailPoint} {snap db : DB} {evts : List Event}
    (h1 : (imgStepDeleteRows fp snap db evts).res = .ret false)
    (h2 : Event.evCommit ∉ (imgStepDeleteRows fp snap db evts).events) :
    (imgStepDeleteRows fp snap db evts).db = snap := by
  by_cases hc : fp = FailPoint.atDelete
  · simp [imgStepDeleteRows, hc, failCaught]
  · simp only [imgStepDeleteRows, if_neg hc] at h1 h2 ⊢
    exact imgStepCommit_fail h1 h2

theorem imgStepInsertCopy_fail {fp : FailPoint} {snap db : DB} {evts : List Event}
    (h1 : (imgStepInsertCopy fp snap db evts).res = .ret false)
    (h2 : Event.evCommit ∉ (imgStepInsertCopy fp snap db evts).events) :
    (imgStepInsertCopy fp snap db evts).db = snap := by
  by_cases hc : (fp = FailPoint.atInsert
      ∨ ¬ (imgListed.all ((db.columnNames "ewcs_images").contains ·)
           && imgListed.all ((db.columnNames "oasc_images").contains ·)) = true)
  · unfold imgStepInsertCopy
    rw [if_pos hc]
    rfl
  · simp only [imgStepInsertCopy, if_neg hc] at h1 h2 ⊢
    exact imgStepDeleteRows_fail h1 h2

/-- A caught failure before COMMIT rolls the image migration back in full. -/
theorem img_fail_db {fp : FailPoint} {db : DB}
    (h1 : (migrate_images fp db).res = .ret false)
    (h2 : Event.evCommit ∉ (migrate_images fp db).events) :
    (migrate_images fp db).db = db := by
  by_cases h0 : fp = FailPoint.atConnect
  · simp [migrate_images, h0] at h1
  by_cases hi : (fp = FailPoint.atIntrospect
      ∨ db.hasTable "ewcs_images" = false
      ∨ "filename" ∉ db.columnNames "ewcs_images"
      ∨ db.hasTable "oasc_images" = false)
  · unfold migrate_images
    rw [if_neg h0, if_pos hi]
    rfl
  by_cases hp : 0 < ((db.rowsOf "ewcs_images").filter
      (fitsPred (db.columnNames "ewcs_images"))).length
  · simp only [migrate_images, if_neg h0, if_neg hi, if_pos hp] at h1 h2 ⊢
    exact imgStepInsertCopy_fail h1 h2
  · simp only [migrate_images, if_neg h0, if_neg hi, if_neg hp] at h1
    simp at h1

theorem imgStepCommit_true {fp : FailPoint} {snap db : DB} {evts : List Event}
    (h : (imgStepCommit fp snap db evts).res = .ret true) :
    Event.evCommit ∈ (imgStepCommit fp snap db evts).events := by
  by_cases hc : fp = FailPoint.atCommit
  · simp [imgStepCommit, hc, failCaught] at h
  · simp only [imgStepCommit, if_neg hc]
    exact imgStepVerify_events_sup (by simp)

theorem imgStepDeleteRows_true {fp : FailPoint} {snap db : DB} {evts : List Event}
    (h : (imgStepDeleteRows fp snap db evts).res = .ret true) :
    Event.evCommit ∈ (imgStepDeleteRows fp snap db evts).events := by
  by_cases hc : fp = FailPoint.atDelete
  · simp [imgStepDeleteRows, hc, failCaught] at h
  · simp only [imgStepDeleteRows, if_neg hc] at h ⊢
    exact imgStepCommit_true h

theorem imgStepInsertCopy_true {fp : FailPoint} {snap db : DB} {evts : List Event}
    (h : (imgStepInsertCopy fp snap db evts).res = .ret true) :
    Event.evCommit ∈ (imgStepInsertCopy fp snap db evts).events := by
  by_cases hc : (fp = FailPoint.atInsert
      ∨ ¬ (imgListed.all ((db.columnNames "ewcs_images").contains ·)
           && imgListed.all ((db.columnNames "oasc_images").contains ·)) = true)
  · unfold imgStepInsertCopy at h
    rw [if_pos hc] at h
    simp [failCaught] at h
  · simp only [imgStepInsertCopy, if_neg hc] at h ⊢
    exact imgStepDeleteRows_true h

/-- An image run that returned True without committing found no matching row
and left the database untouched. -/
theorem img_true_nocommit {fp : FailPoint} {db : DB}
    (h1 : (migrate_images fp db).res = .ret true)
    (h2 : Event.evCommit ∉ (migrate_images fp db).events) :
    migrate_images fp db
        = ⟨db, .ret true, [.evConnect, .evBegin, .evNothingToMigrate, .evClose]⟩
      ∧ ((db.rowsOf "ewcs_images").filter
          (fitsPred (db.columnNames "ewcs_images"))).length = 0 := by
  by_cases h0 : fp = FailPoint.atConnect
  · simp [migrate_images, h0] at h1
  by_cases hi : (fp = FailPoint.atIntrospect
      ∨ db.hasTable "ewcs_images" = false
      ∨ "filename" ∉ db.columnNames "ewcs_images"
      ∨ db.hasTable "oasc_images" = false)
  · exfalso
    unfold migrate_images at h1
    rw [if_neg h0, if_pos hi] at h1
    simp [failCaught] at h1
  by_cases hp : 0 < ((db.rowsOf "ewcs_images").filter
      (fitsPred (db.columnNames "ewcs_images"))).length
  · exfalso
    simp only [migrate_images, if_neg h0, if_neg hi, if_pos hp] at h1 h2
    exact h2 (imgStepInsertCopy_true h1)
  · constructor
    · unfold migrate_images
      rw [if_neg h0, if_neg hi, if_neg hp]
      rfl
    · omega

/-- Reaching COMMIT pins down the branch conditions of the image migration. -/
theorem img_commit_inv {fp : FailPoint} {db : DB}
    (h : Event.evCommit ∈ (migrate_images fp db).events) :
    fp ≠ .atConnect ∧ fp ≠ .atIntrospect ∧ fp ≠ .atInsert ∧ fp ≠ .atDelete
      ∧ fp ≠ .atCommit
      ∧ ∃ e o : Table, db.getTable "ewcs_images" = some e
          ∧ "filename" ∈ e.cols
          ∧ db.getTable "oasc_images" = some o
          ∧ 0 < (e.rows.filter (fitsPred e.cols)).length
          ∧ imgListed.all (e.cols.contains ·) = true
          ∧ imgListed.all (o.cols.contains ·) = true := by
  by_cases h0 : fp = FailPoint.atConnect
  · simp [migrate_images, h0] at h
  by_cases hi : (fp = FailPoint.atIntrospect
      ∨ db.hasTable "ewcs_images" = false
      ∨ "filename" ∉ db.columnNames "ewcs_images"
      ∨ db.hasTable "oasc_images" = false)
  · exfalso
    unfold migrate_images at h
    rw [if_neg h0, if_pos hi] at h
    simp [failCaught, connectBeginEvts] at h
  have hi' := hi
  rw [not_or, not_or, not_or] at hi'
  obtain ⟨hInt, hte, hfn, hto⟩ := hi'
  have he : ∃ e, db.getTable "ewcs_images" = some e := by
    cases hg : db.getTable "ewcs_images" with
    | none =>
      exfalso
      exact hte (hasTable_false_iff.mpr hg)
    | some e => exact ⟨e, rfl⟩
  obtain ⟨e, he⟩ := he
  have ho : ∃ o, db.getTable "oasc_images" = some o := by
    cases hg : db.getTable "oasc_images" with
    | none =>
      exfalso
      exact hto (hasTable_false_iff.mpr hg)
    | some o => exact ⟨o, rfl⟩
  obtain ⟨o, ho⟩ := ho
  have hfc : "filename" ∈ e.cols := by
    have := not_not.mp hfn
    rwa [columnNames_eq he] at this
  by_cases hp : 0 < ((db.rowsOf "ewcs_images").filter
      (fitsPred (db.columnNames "ewcs_images"))).length
  case neg =>
    exfalso
    unfold migrate_images at h
    rw [if_neg h0, if_neg hi, if_neg hp] at h
    simp [connectBeginEvts] at h
  simp only [migrate_images, if_neg h0, if_neg hi, if_pos hp] at h
  have hp' : 0 < (e.rows.filter (fitsPred e.cols)).length := by
    rwa [rowsOf_eq he, columnNames_eq he] at hp
  by_cases h4 : (fp = FailPoint.atInsert
      ∨ ¬ (imgListed.all ((db.columnNames "ewcs_images").contains ·)
           && imgListed.all ((db.columnNames "oasc_images").contains ·)) = true)
  · exfalso
    unfold imgStepInsertCopy at h
    rw [if_pos h4] at h
    simp [failCaught, connectBeginEvts] at h
  have h4' := h4
  rw [not_or] at h4'
  obtain ⟨hIns, hb⟩ := h4'
  have hb' : (imgListed.all ((db.columnNames "ewcs_images").contains ·)
      && imgListed.all ((db.columnNames "oasc_images").contains ·)) = true := by
    simpa using hb
  have hallE : imgListed.all (e.cols.contains ·) = true := by
    have := (Bool.and_eq_true _ _).mp hb' |>.1
    rwa [columnNames_eq he] at this
  have hallO : imgListed.all (o.cols.contains ·) = true := by
    have := (Bool.and_eq_true _ _).mp hb' |>.2
    rwa [columnNames_eq ho] at this
  simp only [imgStepInsertCopy, if_neg h4] at h
  by_cases h5 : fp = FailPoint.atDelete
  · exfalso
    unfold imgStepDeleteRows at h
    rw [if_pos h5] at h
    simp [failCaught, connectBeginEvts] at h
  simp only [imgStepDeleteRows, if_neg h5] at h
  by_cases h6 : fp = FailPoint.atCommit
  · exfalso
    unfold imgStepCommit at h
    rw [if_pos h6] at h
    simp [failCaught, connectBeginEvts] at h
  exact ⟨h0, hInt, hIns, h5, h6, e, o, he, hfc, ho, hp', hallE, hallO⟩

/-- The image migration with every pre-commit condition satisfied: it inserts
the matching rows into oasc_images, deletes them from ewcs_images, commits,
and hands the committed database to the post-commit verification reads. -/
theorem img_success_chain {fp : FailPoint} {db : DB} {e o : Table}
    (hCon : fp ≠ .atConnect) (hInt : fp ≠ .atIntrospect) (hIns : fp ≠ .atInsert)
    (hDel : fp ≠ .atDelete) (hCom : fp ≠ .atCommit)
    (he : db.getTable "ewcs_images" = some e)
    (hfc : "filename" ∈ e.cols)
    (ho : db.getTable "oasc_images" = some o)
    (hp : 0 < (e.rows.filter (fitsPred e.cols)).length)
    (hallE : imgListed.all (e.cols.contains ·) = true)
    (hallO : imgListed.all (o.cols.contains ·) = true) :
    ∃ fdb : DB,
      fdb.getTable "ewcs_images"
          = some ⟨e.cols, e.rows.filter (fun r => !(fitsPred e.cols r))⟩
      ∧ fdb.getTable "oasc_images"
          = some ⟨o.cols, o.rows ++ (e.rows.filter (fitsPred e.cols)).map
              (fun r => insertedRow o.cols imgListed e.cols r)⟩
      ∧ migrate_images fp db
          = imgStepVerify fp fdb
              [.evConnect, .evBegin,
               .evInsert (e.rows.filter (fitsPred e.cols)).length,
               .evDelete (e.rows.filter (fitsPred e.cols)).length, .evCommit] := by
  have heo : ("ewcs_images" : String) ≠ "oasc_images" := by decide
  have hte : db.hasTable "ewcs_images" = true := by
    unfold DB.hasTable
    rw [he]
    rfl
  have hto : db.hasTable "oasc_images" = true := by
    unfold DB.hasTable
    rw [ho]
    rfl
  set t1 : Table := ⟨o.cols, o.rows ++ (e.rows.filter (fitsPred e.cols)).map
      (fun r => insertedRow o.cols imgListed e.cols r)⟩ with ht1
  set db1 := db.setTable "oasc_images" t1 with hdb1
  have g1e : db1.getTable "ewcs_images" = some e := by
    rw [hdb1]
    unfold DB.setTable DB.getTable
    rw [lookupTable_set_other heo]
    exact he
  have g1o : db1.getTable "oasc_images" = some t1 := by
    rw [hdb1]
    unfold DB.setTable DB.getTable
    apply lookupTable_set_self
    show (db.getTable "oasc_images").isSome = true
    rw [ho]
    rfl
  set t2 : Table := ⟨e.cols, e.rows.filter (fun r => !(fitsPred e.cols r))⟩ with ht2
  set db2 := db1.setTable "ewcs_images" t2 with hdb2
  have g2e : db2.getTable "ewcs_images" = some t2 := by
    rw [hdb2]
    unfold DB.setTable DB.getTable
    apply lookupTable_set_self
    show (db1.getTable "ewcs_images").isSome = true
    rw [g1e]
    rfl
  have g2o : db2.getTable "oasc_images" = some t1 := by
    rw [hdb2]
    unfold DB.setTable DB.getTable
    rw [lookupTable_set_other (Ne.symm heo)]
    exact g1o
  refine ⟨db2, g2e, g2o, ?_⟩
  unfold migrate_images
  rw [if_neg hCon,
    if_neg (by simp [hInt, hte, hto, columnNames_eq he, hfc]),
    if_pos (by rwa [rowsOf_eq he, columnNames_eq he])]
  unfold imgStepInsertCopy
  rw [if_neg (by
    rw [columnNames_eq he, columnNames_eq ho, hallE, hallO]
    simp [hIns])]
  rw [show db.setTable "oasc_images"
        ⟨db.columnNames "oasc_images",
         db.rowsOf "oasc_images"
           ++ ((db.rowsOf "ewcs_images").filter
                 (fitsPred (db.columnNames "ewcs_images"))).map
                (fun r => insertedRow (db.columnNames "oasc_images") imgListed
                  (db.columnNames "ewcs_images") r)⟩ = db1 by
    rw [columnNames_eq ho, rowsOf_eq ho, rowsOf_eq he, columnNames_eq he, hdb1, ht1]]
  rw [rowsOf_eq he, columnNames_eq he]
  unfold imgStepDeleteRows
  rw [if_neg hDel]
  rw [show db1.setTable "ewcs_images"
        ⟨db1.columnNames "ewcs_images",
         (db1.rowsOf "ewcs_images").filter
           (fun r => !(fitsPred (db1.columnNames "ewcs_images") r))⟩ = db2 by
    rw [columnNames_eq g1e, rowsOf_eq g1e, hdb2, ht2]]
  rw [rowsOf_eq g1e, columnNames_eq g1e]
  unfold imgStepCommit
  rw [if_neg hCom]
  rfl

/-! ### Remaining helper lemmas -/

theorem mem_of_all_contains {l₁ l₂ : List String}
    (h : l₁.all (l₂.contains ·) = true) {x : String} (hx : x ∈ l₁) : x ∈ l₂ := by
  have := List.all_eq_true.mp h x hx
  simpa using this

theorem all_contains_of_subset {l₁ l₂ : List String} (h : l₁ ⊆ l₂) :
    l₁.all (l₂.contains ·) = true := by
  simp only [List.all_eq_true]
  intro x hx
  simpa using h hx

theorem forall₂_map_left {α β : Type} {P : β → α → Prop} {f : α → β}
    {l : List α} (h : ∀ x ∈ l, P (f x) x) : List.Forall₂ P (l.map f) l := by
  induction l with
  | nil => simp
  | cons a as ih =>
    exact List.Forall₂.cons (h a (by simp))
      (ih (fun x hx => h x (List.mem_cons_of_mem _ hx)))

theorem tripleOf_insertedRow {oCols eCols : List String} {r : List SqlValue}
    (ht : "timestamp" ∈ oCols) (hf : "filename" ∈ oCols)
    (hc : "created_at" ∈ oCols) :
    tripleOf oCols (insertedRow oCols imgListed eCols r) = tripleOf eCols r := by
  unfold tripleOf
  rw [lookupCell_insertedRow ht (by decide), lookupCell_insertedRow hf (by decide),
    lookupCell_insertedRow hc (by decide)]

/-! ### The claims -/

/-- C1: whenever a step between BEGIN TRANSACTION and the index recreation
raises (the run returns False without having committed), the whole
transaction is rolled back: rollback is called, the final database equals
the initial one — so ewcs_data keeps its schema and row count — and the
sibling table ewcs_data_new is not left behind in a database that did not
already hold one. -/
theorem c1_rollback_restores_database (c : String) (newCols : List String)
    (fp : FailPoint) (db : DB)
    (h1 : (migrateDropColumn c newCols fp db).res = .ret false)
    (h2 : Event.evCommit ∉ (migrateDropColumn c newCols fp db).events) :
    (migrateDropColumn c newCols fp db).db = db
      ∧ Event.evRollback ∈ (migrateDropColumn c newCols fp db).events
      ∧ (migrateDropColumn c newCols fp db).db.columnNames "ewcs_data"
          = db.columnNames "ewcs_data"
      ∧ ((migrateDropColumn c newCols fp db).db.rowsOf "ewcs_data").length
          = (db.rowsOf "ewcs_data").length
      ∧ (db.hasTable "ewcs_data_new" = false →
          (migrateDropColumn c newCols fp db).db.hasTable "ewcs_data_new" = false) := by
  have hd := dropColumn_fail_db h1 h2
  exact ⟨hd, dropColumn_fail_rollback h1, by rw [hd], by rw [hd],
    fun h => by rw [hd]; exact h⟩

theorem c1_witness :
    (migrate_cs125_current .noFail dbInsertFailureCase).res = .ret false
      ∧ Event.evCommit ∉ (migrate_cs125_current .noFail dbInsertFailureCase).events
      ∧ (migrate_cs125_current .noFail dbInsertFailureCase).db = dbInsertFailureCase
      ∧ Event.evRollback ∈ (migrate_cs125_current .noFail dbInsertFailureCase).events :=
  ⟨by decide, by decide,
   (c1_rollback_restores_database "cs125_current" cs125TargetCols .noFail
     dbInsertFailureCase (by decide) (by decide)).1,
   (c1_rollback_restores_database "cs125_current" cs125TargetCols .noFail
     dbInsertFailureCase (by decide) (by decide)).2.1⟩

/-- C2 fails as stated: on a table that carries the dropped column and one
extra column, the migration succeeds yet the resulting column list is the
hardcoded target list, not the previous list minus the dropped column (the
extra column is silently lost). -/
theorem c2_counterexample :
    "cs125_current" ∈ dbTwoExtraCols.columnNames "ewcs_data"
      ∧ (migrate_cs125_current .noFail dbTwoExtraCols).res = .ret true
      ∧ (migrate_cs125_current .noFail dbTwoExtraCols).db.columnNames "ewcs_data"
          ≠ (dbTwoExtraCols.columnNames "ewcs_data").erase "cs125_current" := by
  decide

/-- C2 amended: when the table's columns are exactly the hardcoded target
list with the dropped column inserted somewhere (erasing it yields the
target list in order), a successful run yields the previous column list
minus the dropped column, the same row count, and every remaining field
value of every row unchanged. -/
theorem c2_drop_preserves_schema_and_rows (c : String) (newCols : List String)
    (db : DB) (t : Table)
    (ht : db.getTable "ewcs_data" = some t)
    (hc : c ∈ t.cols)
    (he : t.cols.erase c = newCols)
    (hnew : db.hasTable "ewcs_data_new" = false) :
    (migrateDropColumn c newCols .noFail db).res = .ret true
      ∧ (migrateDropColumn c newCols .noFail db).db.columnNames "ewcs_data"
          = t.cols.erase c
      ∧ ((migrateDropColumn c newCols .noFail db).db.rowsOf "ewcs_data").length
          = t.rows.length
      ∧ List.Forall₂ (fun rNew rOld => ∀ d ∈ newCols,
            lookupCell newCols rNew d = lookupCell t.cols rOld d)
          ((migrateDropColumn c newCols .noFail db).db.rowsOf "ewcs_data") t.rows := by
  have hall : newCols.all (t.cols.contains ·) = true :=
    all_contains_of_subset (he ▸ List.erase_subset c t.cols)
  obtain ⟨fdb, gfd, gfn, heq, -⟩ := dropColumn_success_run ht hc hnew hall
  rw [heq]
  refine ⟨rfl, ?_, ?_, ?_⟩
  · rw [columnNames_eq gfd, he]
  · rw [rowsOf_eq gfd]
    exact List.length_map _ _
  · rw [rowsOf_eq gfd]
    exact forall₂_map_left (fun r _ => fun d hd =>
      lookupCell_insertedRow hd (by simpa using hd))

theorem c2_witness :
    ("b" ∈ (["id", "ts", "a", "b"] : List String))
      ∧ (migrateDropColumn "b" ["id", "ts", "a"] .noFail dbSmallDrop).res = .ret true
      ∧ (migrateDropColumn "b" ["id", "ts", "a"] .noFail dbSmallDrop).db.columnNames
          "ewcs_data" = ["id", "ts", "a"] := by
  refine ⟨by decide, ?_, ?_⟩
  · exact (c2_drop_preserves_schema_and_rows "b" ["id", "ts", "a"] dbSmallDrop
      ⟨["id", "ts", "a", "b"], [[.int 1, .int 5, .text "x", .int 9]]⟩
      (by decide) (by decide) (by decide) (by decide)).1
  · have h := (c2_drop_preserves_schema_and_rows "b" ["id", "ts", "a"] dbSmallDrop
      ⟨["id", "ts", "a", "b"], [[.int 1, .int 5, .text "x", .int 9]]⟩
      (by decide) (by decide) (by decide) (by decide)).2.1
    rw [h]
    decide

/-- C3 fails as stated: the scripts execute BEGIN TRANSACTION before the
PRAGMA introspection, so even the nothing-to-migrate run has started a
transaction. -/
theorem c3_counterexample :
    "cs125_current" ∉ dbColumnAbsent.columnNames "ewcs_data"
      ∧ Event.evBegin ∈ (migrate_cs125_current .noFail dbColumnAbsent).events := by
  decide

/-- C3 amended: when the column is absent the run reports nothing to
migrate, executes no mutating statement, reports no migrated rows, leaves
the database untouched and returns success — but the transaction has
already been begun before the introspection (and is discarded by close). -/
theorem c3_noop_branch (c : String) (newCols : List String) (fp : FailPoint)
    (db : DB) (h0 : fp ≠ .atConnect) (hi : fp ≠ .atIntrospect)
    (hm : c ∉ db.columnNames "ewcs_data") :
    migrateDropColumn c newCols fp db
        = ⟨db, .ret true, [.evConnect, .evBegin, .evNothingToMigrate, .evClose]⟩
      ∧ insertedCount (migrateDropColumn c newCols fp db).events = 0
      ∧ ∀ e ∈ (migrateDropColumn c newCols fp db).events, mutatingEvent e = false := by
  have hn := @dropColumn_noop c newCols fp db h0 hi hm
  refine ⟨hn, ?_, ?_⟩
  · rw [hn]
    show insertedCount [.evConnect, .evBegin, .evNothingToMigrate, .evClose] = 0
    decide
  · rw [hn]
    show ∀ e ∈ ([.evConnect, .evBegin, .evNothingToMigrate, .evClose] : List Event),
      mutatingEvent e = false
    decide

theorem c3_witness :
    ("cs125_current" ∉ dbColumnAbsent.columnNames "ewcs_data")
      ∧ migrate_cs125_current .noFail dbColumnAbsent
          = ⟨dbColumnAbsent, .ret true,
             [.evConnect, .evBegin, .evNothingToMigrate, .evClose]⟩
      ∧ insertedCount (migrate_cs125_current .noFail dbColumnAbsent).events = 0 :=
  ⟨by decide,
   (c3_noop_branch "cs125_current" cs125TargetCols .noFail dbColumnAbsent
     (by decide) (by decide) (by decide)).1,
   (c3_noop_branch "cs125_current" cs125TargetCols .noFail dbColumnAbsent
     (by decide) (by decide) (by decide)).2.1⟩

/-- C4 fails as stated: on a table where the copy step raises (the dropped
column is present but a hardcoded target column is missing), the first run
rolls back, so the second run does not find the column absent and does not
take the no-op branch — it executes CREATE TABLE again. -/
theorem c4_counterexample :
    "cs125_current" ∈ ((migrate_cs125_current .noFail dbInsertFailureCase).db).columnNames
        "ewcs_data"
      ∧ Event.evNothingToMigrate ∉ (migrate_cs125_current .noFail
          ((migrate_cs125_current .noFail dbInsertFailureCase).db)).events
      ∧ Event.evCreateTable ∈ (migrate_cs125_current .noFail
          ((migrate_cs125_current .noFail dbInsertFailureCase).db)).events := by
  decide

/-- C4 amended: running the migration twice yields the same final database
(hence schema and row count) as running it once; moreover, whenever the
first run returned success, the second run takes the no-op branch and
performs no mutating work. -/
theorem c4_idempotent (c : String) (newCols : List String) (db : DB)
    (hc : c ∉ newCols) :
    (migrateDropColumn c newCols .noFail
          ((migrateDropColumn c newCols .noFail db).db)).db
        = (migrateDropColumn c newCols .noFail db).db
      ∧ ((migrateDropColumn c newCols .noFail db).res = .ret true →
          migrateDropColumn c newCols .noFail
              ((migrateDropColumn c newCols .noFail db).db)
            = ⟨(migrateDropColumn c newCols .noFail db).db, .ret true,
               [.evConnect, .evBegin, .evNothingToMigrate, .evClose]⟩) := by
  constructor
  · rcases dropColumn_db_or c newCols .noFail db with hdb | hcm
    · rw [hdb]
      exact hdb
    · obtain ⟨t, ht, hcc, hnew, hall⟩ := dropColumn_commit_inv hcm
      obtain ⟨fdb, gfd, gfn, heq, -⟩ := dropColumn_success_run ht hcc hnew hall
      rw [heq]
      have hm : c ∉ fdb.columnNames "ewcs_data" := by
        rw [columnNames_eq gfd]
        exact hc
      rw [dropColumn_noop (by decide) (by decide) hm]
  · intro hres
    by_cases hcm : Event.evCommit ∈ (migrateDropColumn c newCols .noFail db).events
    · obtain ⟨t, ht, hcc, hnew, hall⟩ := dropColumn_commit_inv hcm
      obtain ⟨fdb, gfd, gfn, heq, -⟩ := dropColumn_success_run ht hcc hnew hall
      rw [heq]
      have hm : c ∉ fdb.columnNames "ewcs_data" := by
        rw [columnNames_eq gfd]
        exact hc
      rw [dropColumn_noop (by decide) (by decide) hm]
    · obtain ⟨heq0, hm0⟩ := dropColumn_true_nocommit hres hcm
      rw [heq0]
      rw [dropColumn_noop (by decide) (by decide) hm0]

theorem c4_witness :
    ("cs125_current" ∉ cs125TargetCols)
      ∧ (migrate_cs125_current .noFail dbFullSchema).res = .ret true
      ∧ migrate_cs125_current .noFail ((migrate_cs125_current .noFail dbFullSchema).db)
          = ⟨(migrate_cs125_current .noFail dbFullSchema).db, .ret true,
             [.evConnect, .evBegin, .evNothingToMigrate, .evClose]⟩ :=
  ⟨by decide, by decide,
   (c4_idempotent "cs125_current" cs125TargetCols dbFullSchema (by decide)).2
     (by decide)⟩

/-- C5: the scripts' only gate before the copy-swap is membership of the
column in the current column list; there is no primary-key validation.
Requesting removal of the identity column id (the parameter the two scripts
instantiate with their hardcoded column names) is not rejected: the
migration proceeds, runs the pipeline, and strips the primary key. -/
theorem c5_no_primary_key_validation :
    "id" ∈ dbStdSchema.columnNames "ewcs_data"
      ∧ (migrateDropColumn "id" (cs125TargetCols.erase "id") .noFail
          dbStdSchema).res = .ret true
      ∧ Event.evNothingToMigrate ∉ (migrateDropColumn "id"
          (cs125TargetCols.erase "id") .noFail dbStdSchema).events
      ∧ Event.evCreateTable ∈ (migrateDropColumn "id"
          (cs125TargetCols.erase "id") .noFail dbStdSchema).events
      ∧ "id" ∉ (migrateDropColumn "id" (cs125TargetCols.erase "id") .noFail
          dbStdSchema).db.columnNames "ewcs_data" := by
  decide

/-- C6: when the connect step fails, the handler prints the error (failure
reported), then its `if conn:` reference raises with `conn` unbound, so no
rollback is ever attempted and the exception escapes the migration
function; the interpreter exits with status 1 on a confirmed run. -/
theorem c6_connect_failure (db : DB) (response : String)
    (hy : strLowerCodes response = [121]) :
    (migrate_cs125_current .atConnect db).res = .uncaught
      ∧ Event.evReportError ∈ (migrate_cs125_current .atConnect db).events
      ∧ Event.evRollback ∉ (migrate_cs125_current .atConnect db).events
      ∧ mainCs125 response .atConnect db = 1 := by
  have heq : migrate_cs125_current .atConnect db
      = ⟨db, .uncaught, [.evReportError]⟩ := rfl
  refine ⟨by rw [heq], ?_, ?_, ?_⟩
  · rw [heq]
    show Event.evReportError ∈ [Event.evReportError]
    decide
  · rw [heq]
    show Event.evRollback ∉ [Event.evReportError]
    decide
  · unfold mainCs125
    rw [if_pos hy, heq]
    rfl

theorem c6_witness :
    strLowerCodes "Y" = [121]
      ∧ (migrate_cs125_current .atConnect dbColumnAbsent).res = .uncaught
      ∧ Event.evRollback ∉ (migrate_cs125_current .atConnect dbColumnAbsent).events
      ∧ mainCs125 "Y" .atConnect dbColumnAbsent = 1 :=
  ⟨by decide,
   (c6_connect_failure dbColumnAbsent "Y" (by decide)).1,
   (c6_connect_failure dbColumnAbsent "Y" (by decide)).2.2.1,
   (c6_connect_failure dbColumnAbsent "Y" (by decide)).2.2.2⟩

theorem afterCommit_cons_ne {e : Event} {l : List Event} (h : e ≠ Event.evCommit) :
    afterCommit (e :: l) = afterCommit l := by
  unfold afterCommit
  rw [List.dropWhile_cons, if_pos (bne_iff_ne.mpr h)]

theorem afterCommit_commit (l : List Event) :
    afterCommit (Event.evCommit :: l) = Event.evCommit :: l := by
  unfold afterCommit
  rw [List.dropWhile_cons, if_neg (by simp)]

/-- C7: once the commit has succeeded, the verification read runs outside
the transaction and is observational only: even when it raises, the final
database equals the one of the undisturbed run (the handler's rollback call
finds no open transaction and undoes nothing), and the trace from the
commit on contains no mutating statement and no new transaction. -/
theorem c7_verify_observational (c : String) (newCols : List String) (db : DB)
    (h : Event.evCommit ∈ (migrateDropColumn c newCols .atVerify db).events) :
    (migrateDropColumn c newCols .atVerify db).db
        = (migrateDropColumn c newCols .noFail db).db
      ∧ (afterCommit (migrateDropColumn c newCols .atVerify db).events).all
          (fun e => !(mutatingEvent e)) = true
      ∧ Event.evBegin ∉ afterCommit (migrateDropColumn c newCols .atVerify db).events
      ∧ (afterCommit (migrateDropColumn c newCols .noFail db).events).all
          (fun e => !(mutatingEvent e)) = true := by
  obtain ⟨t, ht, hcc, hnew, hall⟩ := dropColumn_commit_inv h
  obtain ⟨fdb, gfd, gfn, heqN, heqV⟩ := dropColumn_success_run ht hcc hnew hall
  rw [heqN, heqV]
  refine ⟨rfl, ?_, ?_, ?_⟩
  · show (afterCommit [.evConnect, .evBegin, .evCreateTable, .evInsert t.rows.length,
      .evDropTable, .evRename, .evCreateIndexStmt, .evCommit,
      .evReportError, .evRollback, .evClose]).all (fun e => !(mutatingEvent e)) = true
    rw [afterCommit_cons_ne (by simp), afterCommit_cons_ne (by simp),
      afterCommit_cons_ne (by simp), afterCommit_cons_ne (by simp),
      afterCommit_cons_ne (by simp), afterCommit_cons_ne (by simp),
      afterCommit_cons_ne (by simp), afterCommit_commit]
    decide
  · show Event.evBegin ∉ afterCommit [.evConnect, .evBegin, .evCreateTable,
      .evInsert t.rows.length, .evDropTable, .evRename, .evCreateIndexStmt,
      .evCommit, .evReportError, .evRollback, .evClose]
    rw [afterCommit_cons_ne (by simp), afterCommit_cons_ne (by simp),
      afterCommit_cons_ne (by simp), afterCommit_cons_ne (by simp),
      afterCommit_cons_ne (by simp), afterCommit_cons_ne (by simp),
      afterCommit_cons_ne (by simp), afterCommit_commit]
    decide
  · show (afterCommit [.evConnect, .evBegin, .evCreateTable, .evInsert t.rows.length,
      .evDropTable, .evRename, .evCreateIndexStmt, .evCommit,
      .evVerify newCols, .evClose]).all (fun e => !(mutatingEvent e)) = true
    rw [afterCommit_cons_ne (by simp), afterCommit_cons_ne (by simp),
      afterCommit_cons_ne (by simp), afterCommit_cons_ne (by simp),
      afterCommit_cons_ne (by simp), afterCommit_cons_ne (by simp),
      afterCommit_cons_ne (by simp), afterCommit_commit]
    simp [mutatingEvent]

theorem c7_witness :
    Event.evCommit ∈ (migrateDropColumn "cs125_current" cs125TargetCols .atVerify
        dbFullSchema).events
      ∧ (migrateDropColumn "cs125_current" cs125TargetCols .atVerify dbFullSchema).db
          = (migrateDropColumn "cs125_current" cs125TargetCols .noFail dbFullSchema).db :=
  ⟨by decide,
   (c7_verify_observational "cs125_current" cs125TargetCols dbFullSchema (by decide)).1⟩

/-- C8: the process exits 0 when the user declines the confirmation (no-op)
and when the confirmed migration returns success, and exits 1 when the
confirmed migration caught a failure and returned False. -/
theorem c8_exit_codes (argv : List String) (response : String) (fp : FailPoint)
    (db : DB) :
    (autoConfirmPSM argv = false → strLowerCodes response ≠ [121] →
        mainPowerSaveMode argv response fp db = 0)
      ∧ ((autoConfirmPSM argv = true ∨ strLowerCodes response = [121]) →
          ((migrate_power_save_mode fp db).res = .ret true →
            mainPowerSaveMode argv response fp db = 0)
          ∧ ((migrate_power_save_mode fp db).res = .ret false →
            mainPowerSaveMode argv response fp db = 1)) := by
  constructor
  · intro ha hr
    unfold mainPowerSaveMode
    rw [if_neg (by simp [ha]), if_neg hr]
  · intro hor
    have hrun : ∀ b : Bool, (migrate_power_save_mode fp db).res = .ret b →
        mainPowerSaveMode argv response fp db = exitCodeOf (.ret b) := by
      intro b hb
      unfold mainPowerSaveMode
      rcases hor with h | h
      · rw [if_pos h, hb]
      · by_cases hauto : autoConfirmPSM argv = true
        · rw [if_pos hauto, hb]
        · rw [if_neg hauto, if_pos h, hb]
    exact ⟨fun h => hrun true h, fun h => hrun false h⟩

theorem c8_witness :
    autoConfirmPSM ["migrate_power_save_mode.py"] = false
      ∧ strLowerCodes "n" ≠ [121]
      ∧ mainPowerSaveMode ["migrate_power_save_mode.py"] "n" .noFail dbColumnAbsent = 0
      ∧ autoConfirmPSM ["migrate_power_save_mode.py", "-y"] = true
      ∧ (migrate_power_save_mode .atCommit dbFullSchema).res = .ret false
      ∧ mainPowerSaveMode ["migrate_power_save_mode.py", "-y"] "" .atCommit
          dbFullSchema = 1 := by
  refine ⟨by decide, by decide, ?_, by decide, by decide, ?_⟩
  · exact (c8_exit_codes ["migrate_power_save_mode.py"] "n" .noFail
      dbColumnAbsent).1 (by decide) (by decide)
  · exact ((c8_exit_codes ["migrate_power_save_mode.py", "-y"] "" .atCommit
      dbFullSchema).2 (Or.inl (by decide))).2 (by decide)

/-- Moving the matching rows from source to target and deleting them from
the source permutes the combined (timestamp, filename, created_at)
projections. -/
theorem imageTriples_move (eCols oCols : List String)
    (eRows oRows : List (List SqlValue))
    (ht : "timestamp" ∈ oCols) (hf : "filename" ∈ oCols)
    (hc : "created_at" ∈ oCols) :
    ((((eRows.filter (fun r => !(fitsPred eCols r))).map (tripleOf eCols))
       ++ ((oRows ++ (eRows.filter (fitsPred eCols)).map
             (fun r => insertedRow oCols imgListed eCols r)).map (tripleOf oCols))
      : List (SqlValue × SqlValue × SqlValue))
        : Multiset (SqlValue × SqlValue × SqlValue))
    = ((eRows.map (tripleOf eCols) ++ oRows.map (tripleOf oCols)
      : List (SqlValue × SqlValue × SqlValue))
        : Multiset (SqlValue × SqlValue × SqlValue)) := by
  rw [Multiset.coe_eq_coe]
  have hmm : ((eRows.filter (fitsPred eCols)).map
        (fun r => insertedRow oCols imgListed eCols r)).map (tripleOf oCols)
      = (eRows.filter (fitsPred eCols)).map (tripleOf eCols) := by
    rw [List.map_map]
    have hfun : (tripleOf oCols) ∘ (fun r => insertedRow oCols imgListed eCols r)
        = tripleOf eCols := by
      funext r
      exact tripleOf_insertedRow ht hf hc
    rw [hfun]
  rw [List.map_append, hmm]
  have p1 : List.Perm
      ((eRows.filter (fitsPred eCols)).map (tripleOf eCols)
        ++ (eRows.filter (fun r => !(fitsPred eCols r))).map (tripleOf eCols))
      (eRows.map (tripleOf eCols)) := by
    rw [← List.map_append]
    exact (List.filter_append_perm (fitsPred eCols) eRows).map (tripleOf eCols)
  refine List.Perm.trans (List.Perm.append_left _ List.perm_append_comm) ?_
  rw [← List.append_assoc]
  refine List.Perm.trans (List.Perm.append_right _ List.perm_append_comm) ?_
  exact List.Perm.append_right _ p1

/-- C9: every run of the image migration either leaves the database exactly
as it was (any caught failure before COMMIT rolls the transaction back in
full), or commits having appended to oasc_images exactly the source rows
whose filename matches LIKE '%.fits' (in order, projected onto the listed
columns) and deleted exactly those rows from ewcs_images. -/
theorem c9_images_move (fp : FailPoint) (db : DB) :
    ((migrate_images fp db).res = .ret false →
      Event.evCommit ∉ (migrate_images fp db).events →
      (migrate_images fp db).db = db)
      ∧ (Event.evCommit ∈ (migrate_images fp db).events →
          (migrate_images fp db).db.columnNames "ewcs_images"
              = db.columnNames "ewcs_images"
          ∧ (migrate_images fp db).db.rowsOf "ewcs_images"
              = (db.rowsOf "ewcs_images").filter
                  (fun r => !(fitsPred (db.columnNames "ewcs_images") r))
          ∧ (migrate_images fp db).db.columnNames "oasc_images"
              = db.columnNames "oasc_images"
          ∧ (migrate_images fp db).db.rowsOf "oasc_images"
              = db.rowsOf "oasc_images"
                ++ ((db.rowsOf "ewcs_images").filter
                      (fitsPred (db.columnNames "ewcs_images"))).map
                     (fun r => insertedRow (db.columnNames "oasc_images") imgListed
                       (db.columnNames "ewcs_images") r)) := by
  constructor
  · intro h1 h2
    exact img_fail_db h1 h2
  · intro h
    obtain ⟨hCon, hInt, hIns, hDel, hCom, e, o, he, hfc, ho, hp, hallE, hallO⟩ :=
      img_commit_inv h
    obtain ⟨fdb, ge, go, heq⟩ :=
      img_success_chain hCon hInt hIns hDel hCom he hfc ho hp hallE hallO
    have hdbv : (migrate_images fp db).db = fdb := by
      rw [heq]
      exact imgStepVerify_db_eq fp fdb _
    rw [hdbv]
    refine ⟨?_, ?_, ?_, ?_⟩
    · simp only [columnNames_eq ge, columnNames_eq he]
    · simp only [rowsOf_eq ge, rowsOf_eq he, columnNames_eq he]
    · simp only [columnNames_eq go, columnNames_eq ho]
    · simp only [rowsOf_eq go, rowsOf_eq ho, rowsOf_eq he, columnNames_eq he,
        columnNames_eq ho]

theorem c9_witness :
    Event.evCommit ∈ (migrate_images .noFail dbImages).events
      ∧ (migrate_images .noFail dbImages).db.rowsOf "ewcs_images"
          = (dbImages.rowsOf "ewcs_images").filter
              (fun r => !(fitsPred (dbImages.columnNames "ewcs_images") r))
      ∧ (migrate_images .noFail dbImages).db.rowsOf "oasc_images"
          = dbImages.rowsOf "oasc_images"
            ++ ((dbImages.rowsOf "ewcs_images").filter
                  (fitsPred (dbImages.columnNames "ewcs_images"))).map
                 (fun r => insertedRow (dbImages.columnNames "oasc_images") imgListed
                   (dbImages.columnNames "ewcs_images") r) :=
  ⟨by decide,
   ((c9_images_move .noFail dbImages).2 (by decide)).2.1,
   ((c9_images_move .noFail dbImages).2 (by decide)).2.2.2⟩

/-- C10 fails as stated: SQLite LIKE is case-insensitive for ASCII, so a
successful run can insert (and delete) a row whose filename ends in
".FITS" — one more row than the set of filenames ending in the exact
lower-case suffix ".fits" that the claim describes. -/
theorem c10_counterexample :
    (migrate_images .noFail dbImagesUpper).res = .ret true
      ∧ insertedCount (migrate_images .noFail dbImagesUpper).events = 1
      ∧ ((dbImagesUpper.rowsOf "ewcs_images").filter
          (fun r => endsFitsExactVal
            (lookupCell (dbImagesUpper.columnNames "ewcs_images") r
              "filename"))).length = 0 := by
  decide

/-- C10 amended: in every successful run the INSERT rowcount equals the
DELETE rowcount (both count the rows matched by LIKE '%.fits', i.e. the
filenames ending in ".fits" up to ASCII case), and the combined multiset of
(timestamp, filename, created_at) projections across the two tables is
unchanged: no matching row is lost and none is duplicated. -/
theorem c10_tuple_conservation (db : DB)
    (h : (migrate_images .noFail db).res = .ret true) :
    insertedCount (migrate_images .noFail db).events
        = deletedCount (migrate_images .noFail db).events
      ∧ imageTriples (migrate_images .noFail db).db = imageTriples db := by
  by_cases hcm : Event.evCommit ∈ (migrate_images .noFail db).events
  · obtain ⟨hCon, hInt, hIns, hDel, hCom, e, o, he, hfc, ho, hp, hallE, hallO⟩ :=
      img_commit_inv hcm
    obtain ⟨fdb, ge, go, heq⟩ :=
      img_success_chain hCon hInt hIns hDel hCom he hfc ho hp hallE hallO
    constructor
    · rw [heq]
      simp [imgStepVerify, insertedCount, deletedCount]
    · have hdbv : (migrate_images .noFail db).db = fdb := by
        rw [heq]
        exact imgStepVerify_db_eq .noFail fdb _
      rw [hdbv]
      unfold imageTriples
      simp only [columnNames_eq ge, rowsOf_eq ge, columnNames_eq go, rowsOf_eq go,
        columnNames_eq he, rowsOf_eq he, columnNames_eq ho, rowsOf_eq ho]
      exact imageTriples_move e.cols o.cols e.rows o.rows
        (mem_of_all_contains hallO (by decide))
        (mem_of_all_contains hallO (by decide))
        (mem_of_all_contains hallO (by decide))
  · obtain ⟨heq0, -⟩ := img_true_nocommit h hcm
    rw [heq0]
    constructor
    · show insertedCount [.evConnect, .evBegin, .evNothingToMigrate, .evClose]
        = deletedCount [.evConnect, .evBegin, .evNothingToMigrate, .evClose]
      decide
    · rfl

theorem c10_witness :
    (migrate_images .noFail dbImages).res = .ret true
      ∧ insertedCount (migrate_images .noFail dbImages).events
          = deletedCount (migrate_images .noFail dbImages).events
      ∧ imageTriples (migrate_images .noFail dbImages).db = imageTriples dbImages :=
  ⟨by decide,
   (c10_tuple_conservation dbImages (by decide)).1,
   (c10_tuple_conservation dbImages (by decide)).2⟩

end EWCS
